import Mathlib

/-!
Verification development for the `dbwrap` SQL driver wrapper library.

The Go sources are shallowly embedded:
* `Operation`, `Options`, `Middleware`, the functional options and
  `prepareOptions` mirror `options.go`;
* `apply`, the interceptor stage and the decorated methods
  (`wConnExecContext`, `wStmtExec`, `wStmtExecContext`,
  `wConnPrepareContext`, `wRowsNext`) mirror `driver.go`;
* the capability-probing wrappers (`wrapConn`, `wrapStmt`, `wrapRows`)
  are embedded at the level of the externally observable method sets of
  the facades they build (Go interface type assertions);
* `RegisterWithSource` mirrors the registration loop with the
  `database/sql` registry modelled as the list of registered names;
* `Caller` mirrors `runtime.go`, with the call stack modelled as the
  sequence of function names the `runtime.CallersFrames` iterator
  yields (after the fixed 6-frame skip, capped at 30 entries).

Execution of a decorated method is observable through a trace of
events (`Ev`): interceptor invocation, middleware before-hook
invocations, the real driver call, and finalizer invocations.
-/

namespace Dbwrap

/-- `Operation` enumerates SQL operations (source: `driver.go`, the
`Operation` string constants). -/
inductive Operation where
  | ping
  | exec
  | query
  | prepare
  | begin
  | lastInsertId
  | rowsAffected
  | stmtExec
  | stmtQuery
  | stmtClose
  | rowsClose
  | rowsNext
  | commit
  | rollback
  deriving DecidableEq, Repr

/-- The lower-snake-case tag of an operation (the Go string constant). -/
def Operation.tag : Operation → String
  | .ping => "ping"
  | .exec => "exec"
  | .query => "query"
  | .prepare => "prepare"
  | .begin => "begin"
  | .lastInsertId => "last_insert_id"
  | .rowsAffected => "rows_affected"
  | .stmtExec => "stmt_exec"
  | .stmtQuery => "stmt_query"
  | .stmtClose => "stmt_close"
  | .rowsClose => "rows_close"
  | .rowsNext => "rows_next"
  | .commit => "commit"
  | .rollback => "rollback"

/-- A driver value (`driver.Value` is `interface\x7b\x7d` in Go; we model an
opaque value domain large enough for the tests). -/
inductive Value where
  | null
  | str (s : String)
  | int (i : Int)
  deriving DecidableEq, Repr

/-- `driver.NamedValue`. -/
structure NamedValue where
  name : String
  ordinal : Int
  value : Value
  deriving DecidableEq, Repr

/-- Go `error` values that appear in the embedded code paths.
`errSkip` is `driver.ErrSkip`, `eof` is `io.EOF`. -/
inductive GoError where
  | errSkip
  | eof
  | mk (msg : String)
  deriving DecidableEq, Repr

/-- A realized call outcome: `none` is a nil error. -/
abbrev Err := Option GoError

/-- Observable events of one decorated call:
* `intercepted ctx op stmt args`: the interceptor was invoked with
  these arguments;
* `mwBefore i ctx op stmt args`: middleware number `i` (configuration
  order, starting at 0) was invoked with these arguments;
* `realCall op stmt args`: the underlying concrete driver method was
  invoked (for prepared statements `stmt` is the stored query text);
* `finCall i err`: the finalizer slot produced by middleware `i` was
  invoked with realized error `err`;
* `userLog s`: output emitted by a user-supplied finalizer body. -/
inductive Ev (Ctx : Type) where
  | intercepted (ctx : Ctx) (op : Operation) (stmt : String) (args : List NamedValue)
  | mwBefore (i : Nat) (ctx : Ctx) (op : Operation) (stmt : String) (args : List NamedValue)
  | realCall (op : Operation) (stmt : String) (args : List NamedValue)
  | finCall (i : Nat) (err : Err)
  | userLog (s : String)
  deriving DecidableEq, Repr

/-- A finalizer (`func(error)` in Go); its observable behavior is the
log it emits for a given realized error. -/
abbrev Finalizer := Err → List String

/-- `Middleware` (source: `options.go`): invoked before the operation,
returns the (possibly replaced) context and an optional finalizer. -/
abbrev Middleware (Ctx : Type) :=
  Ctx → Operation → String → List NamedValue → Ctx × Option Finalizer

/-- The `Intercept` callback type (source: `options.go`): may rewrite
context, statement and parameters. -/
abbrev Interceptor (Ctx : Type) :=
  Ctx → Operation → String → List NamedValue → Ctx × String × List NamedValue

/-- `Options` (source: `options.go`). The unexported `operations` map is
modelled as its characteristic function; a nil map reads `false`
everywhere, matching Go map lookup on a nil map. -/
structure Options (Ctx : Type) where
  Middlewares : List (Middleware Ctx) := []
  Intercept : Option (Interceptor Ctx) := none
  Operations : List Operation := []
  operations : Operation → Bool := fun _ => false

/-- Functional option (`Option` in the source; renamed because `Option`
is taken in Lean). -/
abbrev Opt (Ctx : Type) := Options Ctx → Options Ctx

/-- `WithOptions` (source: `options.go`): replaces the whole bundle. -/
def WithOptions {Ctx : Type} (options : Options Ctx) : Opt Ctx :=
  fun _ => options

/-- `WithMiddleware` (source: `options.go`): appends middlewares. -/
def WithMiddleware {Ctx : Type} (mw : List (Middleware Ctx)) : Opt Ctx :=
  fun o => { o with Middlewares := o.Middlewares ++ mw }

/-- `WithInterceptor` (source: `options.go`): sets the interceptor. -/
def WithInterceptor {Ctx : Type} (i : Interceptor Ctx) : Opt Ctx :=
  fun o => { o with Intercept := some i }

/-- `WithOperations` (source: `options.go`): appends to the
enabled-operation list. -/
def WithOperations {Ctx : Type} (op : List Operation) : Opt Ctx :=
  fun o => { o with Operations := o.Operations ++ op }

/-- `defaultOperations` (source: `driver.go`): the map literal listing
exactly twelve operations; lookups of keys missing from the map
(`ping` and `rows_next`) yield `false`. -/
def defaultOperations : Operation → Bool
  | .exec => true
  | .query => true
  | .prepare => true
  | .begin => true
  | .lastInsertId => true
  | .rowsAffected => true
  | .stmtExec => true
  | .stmtQuery => true
  | .stmtClose => true
  | .rowsClose => true
  | .commit => true
  | .rollback => true
  | _ => false

/-- `prepareOptions` (source: `options.go`): folds the functional
options over the zero `Options`, reports `false` when neither
middleware nor interceptor is configured, otherwise resolves the
`operations` set (the default one, or the one built from the
explicitly listed operations). -/
def prepareOptions {Ctx : Type} (options : List (Opt Ctx)) : Options Ctx × Bool :=
  let o := options.foldl (fun o option => option o) {}
  if o.Middlewares.isEmpty && o.Intercept.isNone then
    (o, false)
  else
    let o :=
      if o.Operations.isEmpty then
        { o with operations := defaultOperations }
      else
        { o with operations := fun op => o.Operations.contains op }
    (o, true)

/-- The no-op finalizer substituted by `apply` for a nil `onFinish`. -/
def noFin : Finalizer := fun _ => []

/-- A finalizer slot: the index of the middleware that produced it,
paired with the (substituted) finalizer.  In Go the slice cell holds a
bare `func(error)`; the index records which middleware's closure the
cell holds. -/
abbrev Slot := Nat × Finalizer

/-- The loop body of `apply` (source: `driver.go`).  `n` is the length
of the configured middleware list, `i` the index of the next
middleware, `fins` the finalizer slice (cell `n-i-1` is written on
iteration `i`), `evs` the events emitted so far. -/
def applyLoop {Ctx : Type} (op : Operation) (stmt : String) (args : List NamedValue)
    (n : Nat) :
    List (Middleware Ctx) → Nat → Ctx → List Slot → List (Ev Ctx) →
      Ctx × List Slot × List (Ev Ctx)
  | [], _, ctx, fins, evs => (ctx, fins, evs)
  | mw :: rest, i, ctx, fins, evs =>
    let r := mw ctx op stmt args
    let onFinish := r.2.getD noFin
    applyLoop op stmt args n rest (i + 1) r.1
      (fins.set (n - i - 1) (i, onFinish))
      (evs ++ [Ev.mwBefore i ctx op stmt args])

/-- `apply` (source: `driver.go`): invokes each middleware in
configuration order, threading the context, and collects the
finalizers into a slice filled back-to-front (`finalizers[n-i-1]`),
so that the later forward iteration over the slice runs them in
reverse configuration order. -/
def apply {Ctx : Type} (ctx : Ctx) (mws : List (Middleware Ctx)) (operation : Operation)
    (statement : String) (args : List NamedValue) :
    Ctx × List Slot × List (Ev Ctx) :=
  applyLoop operation statement args mws.length mws 0 ctx
    (List.replicate mws.length (0, noFin)) []

/-- The deferred finalizer loop of every decorated method:
`for _, onFinish := range finalizers \x7b onFinish(err) \x7d`. -/
def runSlots {Ctx : Type} (err : Err) : List Slot → List (Ev Ctx)
  | [] => []
  | (i, f) :: rest => (Ev.finCall i err :: (f err).map Ev.userLog) ++ runSlots err rest

/-- `namedValues` (source: `driver.go`): lifts positional values to
`driver.NamedValue`s with only the `Value` field set. -/
def namedValues (args : List Value) : List NamedValue :=
  args.map fun a => { name := "", ordinal := 0, value := a }

/-- `values` (source: `driver.go`): projects `driver.NamedValue`s back
to positional values. -/
def values (nargs : List NamedValue) : List Value :=
  nargs.map fun a => a.value

/-- The interceptor stage shared by the statement-bearing methods
(source: `driver.go`, the `if c.options.Intercept != nil` blocks):
returns the (possibly rewritten) context, statement and parameters
plus the interception event. -/
def interceptStage {Ctx : Type} (o : Options Ctx) (ctx : Ctx) (op : Operation)
    (stmt : String) (args : List NamedValue) :
    Ctx × String × List NamedValue × List (Ev Ctx) :=
  match o.Intercept with
  | some f =>
    let r := f ctx op stmt args
    (r.1, r.2.1, r.2.2, [Ev.intercepted ctx op stmt args])
  | none => (ctx, stmt, args, [])

/-- The middleware stage shared by all decorated methods (source:
`driver.go`, the `if c.options.operations[...]` blocks): applies the
middlewares when the operation is enabled, otherwise passes through. -/
def mwStage {Ctx : Type} (o : Options Ctx) (op : Operation) (ctx : Ctx)
    (stmt : String) (args : List NamedValue) :
    Ctx × List Slot × List (Ev Ctx) :=
  if o.operations op then apply ctx o.Middlewares op stmt args
  else (ctx, [], [])

/-- The concrete (wrapped) prepared statement, abstracted to the
outcomes of its calls.  `hasStmtExecContext` / `hasStmtQueryContext`
record whether the optional context-aware roles are implemented. -/
structure ParentStmt (Ctx : Type) where
  numInput : Int := 0
  execErr : List Value → Err := fun _ => none
  queryErr : List Value → Err := fun _ => none
  hasStmtExecContext : Bool := false
  execContextErr : Ctx → List NamedValue → Err := fun _ _ => none
  hasStmtQueryContext : Bool := false
  queryContextErr : Ctx → List NamedValue → Err := fun _ _ => none

/-- The concrete (wrapped) connection, abstracted to capability flags
and the outcomes of its calls. -/
structure ParentConn (Ctx : Type) where
  hasExecerContext : Bool := false
  execContextErr : Ctx → String → List NamedValue → Err := fun _ _ _ => none
  hasQueryerContext : Bool := false
  queryContextErr : Ctx → String → List NamedValue → Err := fun _ _ _ => none
  hasConnPrepareContext : Bool := false
  prepareContextRes : Ctx → String → Except GoError (ParentStmt Ctx) :=
    fun _ _ => .error (GoError.mk "unused")

/-- The concrete (wrapped) result-set cursor, abstracted to the outcome
of `Next`. -/
structure ParentRows where
  nextErr : Err := none

/-- The `wStmt` record (source: `driver.go`): stored context, parent
statement (nil in the `PrepareContext` fallback path), the query text
captured at prepare time, and the shared options. -/
structure WStmt (Ctx : Type) where
  ctx : Ctx
  parent : Option (ParentStmt Ctx)
  query : String
  options : Options Ctx

/-- `wConn.ExecContext` (source: `driver.go`): parent capability check
(`driver.ErrSkip` on a parent without `driver.ExecerContext`, before
the interceptor), interceptor stage, middleware stage when `exec` is
enabled, the real call with the rewritten statement/parameters and the
pipeline context, then the deferred finalizers with the realized
error. -/
def wConnExecContext {Ctx : Type} (o : Options Ctx) (parent : ParentConn Ctx)
    (ctx : Ctx) (query : String) (args : List NamedValue) : Err × List (Ev Ctx) :=
  if parent.hasExecerContext = false then (some GoError.errSkip, [])
  else
    let (ctx1, query1, args1, evI) := interceptStage o ctx Operation.exec query args
    let (ctx2, fins, evM) := mwStage o Operation.exec ctx1 query1 args1
    let err := parent.execContextErr ctx2 query1 args1
    (err, evI ++ evM ++ [Ev.realCall Operation.exec query1 args1] ++ runSlots err fins)

/-- `wConn.PrepareContext` (source: `driver.go`): interceptor stage on
`prepare`, middleware stage, then — only when the parent implements
`driver.ConnPrepareContext` — the real prepare; on success, and also
when the capability is absent (leaving the zero-value `stmt`), the
result is `wrapStmt(ctx, stmt, query, options)`. -/
def wConnPrepareContext {Ctx : Type} (o : Options Ctx) (parent : ParentConn Ctx)
    (ctx : Ctx) (query : String) :
    Except GoError (WStmt Ctx) × List (Ev Ctx) :=
  let (ctx1, query1, _, evI) := interceptStage o ctx Operation.prepare query []
  let (ctx2, fins, evM) := mwStage o Operation.prepare ctx1 query1 []
  if parent.hasConnPrepareContext then
    match parent.prepareContextRes ctx2 query1 with
    | .error e =>
      (.error e,
        evI ++ evM ++ [Ev.realCall Operation.prepare query1 []] ++ runSlots (some e) fins)
    | .ok p =>
      (.ok { ctx := ctx2, parent := some p, query := query1, options := o },
        evI ++ evM ++ [Ev.realCall Operation.prepare query1 []] ++ runSlots none fins)
  else
    (.ok { ctx := ctx2, parent := none, query := query1, options := o },
      evI ++ evM ++ runSlots none fins)

/-- `wStmt.NumInput` (source: `driver.go`): returns `-1` for a nil
parent so the `sql` package skips argument-count checks, otherwise
delegates. -/
def wStmtNumInput {Ctx : Type} (s : WStmt Ctx) : Int :=
  match s.parent with
  | none => -1
  | some p => p.numInput

/-- `wStmt.Exec` (source: `driver.go`, legacy positional-value path):
the interceptor receives the stored query; its rewritten statement is
discarded (`ctx, _, nargs := ...`) while its rewritten parameters are
kept; the middlewares then observe the stored query text; finally the
parent prepared statement executes the rewritten parameters.
The real-call event records the stored query for reference (a prepared
statement takes no statement argument).  A nil parent is unreachable
here (Go would panic); the model returns a nil error without a real
call in that case. -/
def wStmtExec {Ctx : Type} (s : WStmt Ctx) (args : List Value) : Err × List (Ev Ctx) :=
  let (ctx1, _, nargs, evI) := interceptStage s.options s.ctx Operation.stmtExec s.query
    (namedValues args)
  let args1 := if s.options.Intercept.isSome then values nargs else args
  let (_, fins, evM) := mwStage s.options Operation.stmtExec ctx1 s.query (namedValues args1)
  match s.parent with
  | none => (none, evI ++ evM ++ runSlots none fins)
  | some p =>
    let err := p.execErr args1
    (err,
      evI ++ evM ++ [Ev.realCall Operation.stmtExec s.query (namedValues args1)]
        ++ runSlots err fins)

/-- `wStmt.ExecContext` (source: `driver.go`): the interceptor is
called with the *stored* context `s.ctx` (not the argument context)
and the stored query; its rewritten statement is discarded while its
rewritten parameters are kept; a parent without
`driver.StmtExecContext` yields the "driver does not implement
ExecContext" error after the middleware stage, so the finalizers
observe that error. -/
def wStmtExecContext {Ctx : Type} (s : WStmt Ctx) (ctx : Ctx) (args : List NamedValue) :
    Err × List (Ev Ctx) :=
  let (ctx1, _, args1, evI) :=
    match s.options.Intercept with
    | some f =>
      let r := f s.ctx Operation.stmtExec s.query args
      (r.1, r.2.1, r.2.2, [Ev.intercepted s.ctx Operation.stmtExec s.query args])
    | none => (ctx, s.query, args, [])
  let (ctx2, fins, evM) := mwStage s.options Operation.stmtExec ctx1 s.query args1
  match s.parent with
  | none => (none, evI ++ evM ++ runSlots none fins)
  | some p =>
    if p.hasStmtExecContext = false then
      let err : Err := some (GoError.mk "driver does not implement ExecContext")
      (err, evI ++ evM ++ runSlots err fins)
    else
      let err := p.execContextErr ctx2 args1
      (err,
        evI ++ evM ++ [Ev.realCall Operation.stmtExec s.query args1] ++ runSlots err fins)

/-- `wRows.Next` (source: `driver.go`): middleware stage only — there
is no interceptor stage for `rows_next` — then the parent cursor
advances and the finalizers observe its error. -/
def wRowsNext {Ctx : Type} (o : Options Ctx) (parent : ParentRows) (ctx : Ctx) :
    Err × List (Ev Ctx) :=
  let (_, fins, evM) := mwStage o Operation.rowsNext ctx "" []
  let err := parent.nextErr
  (err, evM ++ [Ev.realCall Operation.rowsNext "" []] ++ runSlots err fins)

/-!  Capability probing (source: `driver_go1.10.go`).  A wrapped object
is observed from outside through Go interface type assertions; we
embed each `wrap*` constructor at the level of the method set of the
value it returns.  A capability record holds one flag per optional
role; the mandatory role (`driver.Conn`, `driver.Stmt`, `driver.Rows`)
is implicit.  -/

/-- Optional capability roles of a connection as probed by
`database/sql`.  `wConn` itself implements the first seven roles plus
`CheckNamedValue`, so these are the roles a facade can expose. -/
structure ConnCaps where
  pinger : Bool
  execer : Bool
  execerContext : Bool
  queryer : Bool
  queryerContext : Bool
  connPrepareContext : Bool
  connBeginTx : Bool
  namedValueChecker : Bool
  sessionResetter : Bool
  deriving DecidableEq, Repr

/-- `wrapConn` (source: `driver_go1.10.go`): probes the parent for
`driver.NamedValueChecker` and `driver.SessionResetter`, then builds
one of four facades.  Each branch below records the method set of the
value the Go code returns there:
* `*wConn` implements the whole `conn` interface (Pinger, Execer,
  ExecerContext, Queryer, QueryerContext, ConnPrepareContext,
  ConnBeginTx) *and* has a `CheckNamedValue` method;
* the anonymous structs embed the `conn` interface (which does not
  list `CheckNamedValue`) plus the probed-true roles. -/
def wrapConn (parent : ConnCaps) : ConnCaps :=
  let hasNameValueChecker := parent.namedValueChecker
  let hasSessionResetter := parent.sessionResetter
  match hasNameValueChecker, hasSessionResetter with
  | false, false =>
    -- return c  (a *wConn: all conn methods plus CheckNamedValue)
    { pinger := true, execer := true, execerContext := true, queryer := true,
      queryerContext := true, connPrepareContext := true, connBeginTx := true,
      namedValueChecker := true, sessionResetter := false }
  | true, false =>
    -- struct\x7b conn; driver.NamedValueChecker \x7d
    { pinger := true, execer := true, execerContext := true, queryer := true,
      queryerContext := true, connPrepareContext := true, connBeginTx := true,
      namedValueChecker := true, sessionResetter := false }
  | false, true =>
    -- struct\x7b conn; driver.SessionResetter \x7d
    { pinger := true, execer := true, execerContext := true, queryer := true,
      queryerContext := true, connPrepareContext := true, connBeginTx := true,
      namedValueChecker := false, sessionResetter := true }
  | true, true =>
    -- struct\x7b conn; driver.NamedValueChecker; driver.SessionResetter \x7d
    { pinger := true, execer := true, execerContext := true, queryer := true,
      queryerContext := true, connPrepareContext := true, connBeginTx := true,
      namedValueChecker := true, sessionResetter := true }

/-- Optional capability roles of a prepared statement. -/
structure StmtCaps where
  stmtExecContext : Bool
  stmtQueryContext : Bool
  columnConverter : Bool
  namedValueChecker : Bool
  deriving DecidableEq, Repr

/-- `wrapStmt` (source: `driver_go1.10.go`): probes the parent
statement for the four optional roles and selects one of sixteen
anonymous-struct facades, each embedding `driver.Stmt` plus exactly
the probed-true roles.  The sixteen cases appear in source order. -/
def wrapStmt (parent : StmtCaps) : StmtCaps :=
  let hasExeCtx := parent.stmtExecContext
  let hasQryCtx := parent.stmtQueryContext
  let hasColConv := parent.columnConverter
  let hasNamValChk := parent.namedValueChecker
  match hasExeCtx, hasQryCtx, hasColConv, hasNamValChk with
  | false, false, false, false =>
    { stmtExecContext := false, stmtQueryContext := false,
      columnConverter := false, namedValueChecker := false }
  | false, true, false, false =>
    { stmtExecContext := false, stmtQueryContext := true,
      columnConverter := false, namedValueChecker := false }
  | true, false, false, false =>
    { stmtExecContext := true, stmtQueryContext := false,
      columnConverter := false, namedValueChecker := false }
  | true, true, false, false =>
    { stmtExecContext := true, stmtQueryContext := true,
      columnConverter := false, namedValueChecker := false }
  | false, false, true, false =>
    { stmtExecContext := false, stmtQueryContext := false,
      columnConverter := true, namedValueChecker := false }
  | false, true, true, false =>
    { stmtExecContext := false, stmtQueryContext := true,
      columnConverter := true, namedValueChecker := false }
  | true, false, true, false =>
    { stmtExecContext := true, stmtQueryContext := false,
      columnConverter := true, namedValueChecker := false }
  | true, true, true, false =>
    { stmtExecContext := true, stmtQueryContext := true,
      columnConverter := true, namedValueChecker := false }
  | false, false, false, true =>
    { stmtExecContext := false, stmtQueryContext := false,
      columnConverter := false, namedValueChecker := true }
  | false, true, false, true =>
    { stmtExecContext := false, stmtQueryContext := true,
      columnConverter := false, namedValueChecker := true }
  | true, false, false, true =>
    { stmtExecContext := true, stmtQueryContext := false,
      columnConverter := false, namedValueChecker := true }
  | true, true, false, true =>
    { stmtExecContext := true, stmtQueryContext := true,
      columnConverter := false, namedValueChecker := true }
  | false, false, true, true =>
    { stmtExecContext := false, stmtQueryContext := false,
      columnConverter := true, namedValueChecker := true }
  | false, true, true, true =>
    { stmtExecContext := false, stmtQueryContext := true,
      columnConverter := true, namedValueChecker := true }
  | true, false, true, true =>
    { stmtExecContext := true, stmtQueryContext := false,
      columnConverter := true, namedValueChecker := true }
  | true, true, true, true =>
    { stmtExecContext := true, stmtQueryContext := true,
      columnConverter := true, namedValueChecker := true }

/-- Optional capability roles of a result-set cursor. -/
structure RowsCaps where
  nextResultSet : Bool
  columnTypeDatabaseTypeName : Bool
  columnTypeLength : Bool
  columnTypeNullable : Bool
  columnTypePrecisionScale : Bool
  columnTypeScanType : Bool
  deriving DecidableEq, Repr

/-- `wrapRows` (source: `driver.go`): probes the parent only for
`driver.RowsColumnTypeScanType`.  The `wRows` struct itself defines
`HasNextResultSet`, `NextResultSet`, `ColumnTypeDatabaseTypeName`,
`ColumnTypeLength`, `ColumnTypeNullable` and
`ColumnTypePrecisionScale` (falling back to zero values when the
parent lacks the role), so every facade exposes those five roles; the
`ColumnTypeScanType` role is exposed only through the composed struct
when the parent implements it. -/
def wrapRows (parent : RowsCaps) : RowsCaps :=
  let hasColumnTypeScan := parent.columnTypeScanType
  if hasColumnTypeScan then
    { nextResultSet := true, columnTypeDatabaseTypeName := true,
      columnTypeLength := true, columnTypeNullable := true,
      columnTypePrecisionScale := true, columnTypeScanType := true }
  else
    { nextResultSet := true, columnTypeDatabaseTypeName := true,
      columnTypeLength := true, columnTypeNullable := true,
      columnTypePrecisionScale := true, columnTypeScanType := false }

/-- Result of a wrap entry point: either the original object handed
back untouched, or a decorated facade carrying the prepared options. -/
inductive Wrapped (α : Type) (Ctx : Type) where
  | orig (a : α)
  | wrapped (a : α) (o : Options Ctx)

/-- `Wrap` (source: `driver.go`): decorates the driver only when
`prepareOptions` reports operational options. -/
def Wrap {α Ctx : Type} (d : α) (options : List (Opt Ctx)) : Wrapped α Ctx :=
  match prepareOptions options with
  | (o, true) => .wrapped d o
  | (_, false) => .orig d

/-- `WrapConn` (source: `driver.go`): decorates an existing connection
only when `prepareOptions` reports operational options. -/
def WrapConn {α Ctx : Type} (c : α) (options : List (Opt Ctx)) : Wrapped α Ctx :=
  match prepareOptions options with
  | (o, true) => .wrapped c o
  | (_, false) => .orig c

/-- `WrapConnector` (source: `driver_go1.10.go`): decorates a connector
only when `prepareOptions` reports operational options. -/
def WrapConnector {α Ctx : Type} (dc : α) (options : List (Opt Ctx)) : Wrapped α Ctx :=
  match prepareOptions options with
  | (o, true) => .wrapped dc o
  | (_, false) => .orig dc

/-!  Registration (source: `driver.go`, `RegisterWithSource`).  The
`database/sql` registry is modelled as the list of registered driver
names; `sql.Open`/`db.Close` outcomes are inputs of the model. -/

/-- The name-allocation loop of `RegisterWithSource`:
`for i := int64(0); i < 100; i++` probing `driverName + "-wrap-" + i`.
`fuel` is the number of indices still to try (100 at the top call). -/
def regLoop (names : List String) (pre : String) : Nat → Nat → Option String
  | _, 0 => none
  | i, fuel + 1 =>
    let regName := pre ++ toString i
    if names.contains regName then regLoop names pre (i + 1) fuel
    else some regName

/-- `RegisterWithSource` (source: `driver.go`): opens the named driver
(failure is returned as-is), closes the probe handle (failure returned
as-is), then allocates the first free `<driverName>-wrap-<i>` name for
`i < 100`, registers under it and returns it; with all 100 suffixes
taken it returns the "all slots have been taken" error and registers
nothing. -/
def RegisterWithSource (names : List String) (driverName : String)
    (openErr : Err) (closeErr : Err) : List String × Except GoError String :=
  match openErr with
  | some e => (names, .error e)
  | none =>
    match closeErr with
    | some e => (names, .error e)
    | none =>
      let pre := driverName ++ "-wrap-"
      match regLoop names pre 0 100 with
      | some regName => (names ++ [regName], .ok regName)
      | none =>
        (names, .error (GoError.mk "unable to register driver, all slots have been taken"))

/-!  Caller resolution (source: `runtime.go`).  The call stack is the
sequence of function names yielded by `runtime.CallersFrames` (already
past the fixed `skipCallers = 6` internal frames, at most
`stackSize = 30` entries).  The loop reads `frame, more := frames.Next()`
and breaks when `more` is false, so the final yielded frame is never
inspected. -/

/-- Splitting a character list at every occurrence of `sep`; `acc`
holds the current (reversed) segment.  This is the single-character
case of Go `strings.Split`, implemented structurally so that the
kernel can evaluate it. -/
def splitChar (sep : Char) : List Char → List Char → List (List Char)
  | [], acc => [acc.reverse]
  | c :: cs, acc =>
    if c = sep then acc.reverse :: splitChar sep cs []
    else splitChar sep cs (c :: acc)

/-- Go `strings.Split` with a one-character separator. -/
def strSplit (s : String) (sep : Char) : List String :=
  (splitChar sep s.data []).map String.mk

/-- Go `strings.Contains` with a one-character needle. -/
def strContainsChar (s : String) (c : Char) : Bool :=
  s.data.contains c

/-- Go `strings.Join`. -/
def strJoin (sep : String) : List String → String
  | [] => ""
  | [x] => x
  | x :: y :: xs => x ++ sep ++ strJoin sep (y :: xs)

/-- Whether the path starts with a slash. -/
def strRooted (s : String) : Bool :=
  match s.data with
  | '/' :: _ => true
  | _ => false

/-- Go `path.Clean` restricted to the lexical algorithm: drops empty
and `.` elements, resolves `..` against preceding elements, keeps
leading `..`s of relative paths, and returns `.` (or `/` when rooted)
for an empty result. -/
def pathClean (p : String) : String :=
  if p = "" then "."
  else
    let rooted := strRooted p
    let out := (strSplit p '/').foldl
      (fun acc e =>
        if e = "" ∨ e = "." then acc
        else if e = ".." then
          if acc ≠ [] ∧ acc.getLast? ≠ some ".." then acc.dropLast
          else if rooted then acc
          else acc ++ [".."]
        else acc ++ [e])
      ([] : List String)
    let s := strJoin "/" out
    if rooted then "/" ++ s
    else if s = "" then "."
    else s

/-- Go `path.Dir`: everything up to and including the final slash,
cleaned. -/
def pathDir (p : String) : String :=
  let parts := strSplit p '/'
  let dir := if parts.length = 1 then "" else strJoin "/" parts.dropLast ++ "/"
  pathClean dir

/-- Go `path.Base`: the last element of the path after trailing slashes
are removed; `.` for the empty path, `/` for an all-slash path. -/
def pathBase (p : String) : String :=
  if p = "" then "."
  else
    let q : String := ⟨(p.data.reverse.dropWhile (· = '/')).reverse⟩
    if q = "" then "/"
    else (strSplit q '/').getLastD ""

/-- Whether a frame survives the unnamed-literal check
(`fn == "" || strings.Contains(fn, "\x7b")`). -/
def frameVisible (fn : String) : Bool :=
  !(fn = "" || strContainsChar fn '\x7b')

/-- The package-qualified prefix computed for a frame: the last path
segment is truncated at its first `.`
(`parts[len(parts)-1] = strings.Split(parts[len(parts)-1], ".")[0]`). -/
def framePkg (fn : String) : String :=
  let parts := strSplit fn '/'
  let stripped := ((strSplit (parts.getLastD "") '.')).headD ""
  strJoin "/" (parts.dropLast ++ [stripped])

/-- The format of a resolved caller:
`path.Base(path.Dir(fn)) + "/" + path.Base(fn)`. -/
def fmtFrame (fn : String) : String :=
  pathBase (pathDir fn) ++ "/" ++ pathBase fn

/-- Whether a frame is accepted by `Caller`: it is a named frame whose
package prefix is neither `database/sql`, nor
`github.com/bool64/dbwrap`, nor in the caller-supplied skip list. -/
def frameAccept (skipPackages : List String) (fn : String) : Bool :=
  frameVisible fn
    && !(framePkg fn = "database/sql" || framePkg fn = "github.com/bool64/dbwrap")
    && !(skipPackages.contains (framePkg fn))

/-- The frame loop of `Caller` (source: `runtime.go`): `p` is the loop
variable holding the most recently computed package prefix; an
accepted frame reassigns `p` to the formatted caller and breaks; an
exhausted loop returns the residual `p`. -/
def callerLoop (skipPackages : List String) : List String → String → String
  | [], p => p
  | fn :: rest, p =>
    if fn = "" || strContainsChar fn '\x7b' then callerLoop skipPackages rest p
    else
      let p1 := framePkg fn
      if p1 = "database/sql" || p1 = "github.com/bool64/dbwrap" then
        callerLoop skipPackages rest p1
      else if skipPackages.contains p1 then callerLoop skipPackages rest p1
      else fmtFrame fn

/-- `Caller` (source: `runtime.go`): walks the yielded frames; the
final yielded frame is dropped because the loop breaks on
`!more` before using it. -/
def Caller (skipPackages : List String) (stack : List String) : String :=
  callerLoop skipPackages stack.dropLast ""

/-!  Proof infrastructure: a structural characterization of `apply`'s
index-juggling loop, and extractors reading the observable data back
out of a trace. -/

/-- Joint output of the middleware phase. -/
structure ChainOut (Ctx : Type) where
  ctx : Ctx
  slots : List Slot
  evs : List (Ev Ctx)

/-- Structural recursion describing the middleware phase: each
middleware sees the context produced by its predecessor, and the slot
list collects the finalizers in reverse configuration order (the Go
loop writes cell `n-i-1` on iteration `i`). -/
def chain {Ctx : Type} (op : Operation) (stmt : String) (args : List NamedValue) :
    List (Middleware Ctx) → Nat → Ctx → ChainOut Ctx
  | [], _, ctx => ⟨ctx, [], []⟩
  | mw :: rest, i, ctx =>
    let r := mw ctx op stmt args
    let o := chain op stmt args rest (i + 1) r.1
    ⟨o.ctx, o.slots ++ [(i, r.2.getD noFin)], Ev.mwBefore i ctx op stmt args :: o.evs⟩

/-- Contexts as threaded through a middleware list: entry `i` is the
context middleware `i` is invoked with, and middleware `i+1` receives
the context middleware `i` returned. -/
def threadCtxs {Ctx : Type} (op : Operation) (stmt : String) (args : List NamedValue) :
    List (Middleware Ctx) → Nat → Ctx → List (Nat × Ctx)
  | [], _, _ => []
  | mw :: rest, i, ctx => (i, ctx) :: threadCtxs op stmt args rest (i + 1) (mw ctx op stmt args).1

/-- The middleware before-hook invocations recorded in a trace, in
order: index, context, operation, statement, parameters. -/
def beforeObs {Ctx : Type} (tr : List (Ev Ctx)) :
    List (Nat × Ctx × Operation × String × List NamedValue) :=
  tr.filterMap fun e =>
    match e with
    | .mwBefore i ctx op stmt args => some (i, ctx, op, stmt, args)
    | _ => none

/-- The finalizer invocations recorded in a trace, in order: middleware
index and the error value the finalizer received. -/
def finObs {Ctx : Type} (tr : List (Ev Ctx)) : List (Nat × Err) :=
  tr.filterMap fun e =>
    match e with
    | .finCall i err => some (i, err)
    | _ => none

/-- The interceptor invocations recorded in a trace, in order. -/
def interceptObs {Ctx : Type} (tr : List (Ev Ctx)) :
    List (Ctx × Operation × String × List NamedValue) :=
  tr.filterMap fun e =>
    match e with
    | .intercepted ctx op stmt args => some (ctx, op, stmt, args)
    | _ => none

theorem set_drop {α : Type} (x : α) :
    ∀ (l : List α) (k : Nat), k < l.length → (l.set k x).drop k = x :: l.drop (k + 1)
  | a :: t, 0, _ => by simp
  | a :: t, k + 1, h => by
    have ih := set_drop x t k (by simpa using h)
    simpa using ih

theorem applyLoop_eq_chain {Ctx : Type} (op : Operation) (stmt : String)
    (args : List NamedValue) :
    ∀ (mws : List (Middleware Ctx)) (i : Nat) (ctx : Ctx) (fins : List Slot)
      (evs : List (Ev Ctx)), i + mws.length = fins.length →
      applyLoop op stmt args fins.length mws i ctx fins evs =
        ((chain op stmt args mws i ctx).ctx,
         (chain op stmt args mws i ctx).slots ++ fins.drop mws.length,
         evs ++ (chain op stmt args mws i ctx).evs)
  | [], i, ctx, fins, evs, _ => by simp [applyLoop, chain]
  | mw :: rest, i, ctx, fins, evs, h => by
    have hk : fins.length - i - 1 = rest.length := by
      simp only [List.length_cons] at h
      omega
    have hklt : rest.length < fins.length := by
      simp only [List.length_cons] at h
      omega
    have hlen : (fins.set (fins.length - i - 1)
        (i, ((mw ctx op stmt args).2.getD noFin))).length = fins.length := by
      simp
    have ih := applyLoop_eq_chain op stmt args rest (i + 1) (mw ctx op stmt args).1
      (fins.set (fins.length - i - 1) (i, ((mw ctx op stmt args).2.getD noFin)))
      (evs ++ [Ev.mwBefore i ctx op stmt args])
      (by
        simp only [List.length_cons] at h
        simp only [List.length_set]
        omega)
    rw [hlen] at ih
    have hdrop : (fins.set (fins.length - i - 1)
        (i, ((mw ctx op stmt args).2.getD noFin))).drop rest.length =
        (i, ((mw ctx op stmt args).2.getD noFin)) :: fins.drop (rest.length + 1) := by
      rw [← hk] at hklt ⊢
      exact set_drop _ fins (fins.length - i - 1) (by omega)
    rw [hk] at ih hdrop
    simp only [applyLoop]
    rw [hk, ih, hdrop]
    simp [chain, Prod.ext_iff, List.append_assoc]

theorem apply_eq_chain {Ctx : Type} (ctx : Ctx) (mws : List (Middleware Ctx))
    (op : Operation) (stmt : String) (args : List NamedValue) :
    apply ctx mws op stmt args =
      ((chain op stmt args mws 0 ctx).ctx,
       (chain op stmt args mws 0 ctx).slots,
       (chain op stmt args mws 0 ctx).evs) := by
  have h := applyLoop_eq_chain op stmt args mws 0 ctx
    (List.replicate mws.length ((0, noFin) : Slot)) [] (by simp)
  simp only [List.length_replicate] at h
  simpa [apply] using h

theorem chain_evs_eq {Ctx : Type} (op : Operation) (stmt : String)
    (args : List NamedValue) :
    ∀ (mws : List (Middleware Ctx)) (i : Nat) (ctx : Ctx),
      (chain op stmt args mws i ctx).evs =
        (threadCtxs op stmt args mws i ctx).map fun p => Ev.mwBefore p.1 p.2 op stmt args
  | [], _, _ => rfl
  | mw :: rest, i, ctx => by
    have ih := chain_evs_eq op stmt args rest (i + 1) (mw ctx op stmt args).1
    simp [chain, threadCtxs, ih]

theorem beforeObs_mwBefore_map {Ctx : Type} (op : Operation) (stmt : String)
    (args : List NamedValue) (l : List (Nat × Ctx)) :
    beforeObs (l.map fun p => Ev.mwBefore p.1 p.2 op stmt args) =
      l.map fun p => (p.1, p.2, op, stmt, args) := by
  induction l with
  | nil => rfl
  | cons a t ih => simpa [beforeObs] using ih

theorem finObs_mwBefore_map {Ctx : Type} (op : Operation) (stmt : String)
    (args : List NamedValue) (l : List (Nat × Ctx)) :
    finObs (l.map fun p => Ev.mwBefore p.1 p.2 op stmt args) = [] := by
  induction l with
  | nil => rfl
  | cons a t ih => simpa [finObs] using ih

theorem interceptObs_mwBefore_map {Ctx : Type} (op : Operation) (stmt : String)
    (args : List NamedValue) (l : List (Nat × Ctx)) :
    interceptObs (l.map fun p => Ev.mwBefore p.1 p.2 op stmt args) = [] := by
  induction l with
  | nil => rfl
  | cons a t ih => simpa [interceptObs] using ih

theorem chain_beforeObs {Ctx : Type} (op : Operation) (stmt : String)
    (args : List NamedValue) (mws : List (Middleware Ctx)) (i : Nat) (ctx : Ctx) :
    beforeObs (chain op stmt args mws i ctx).evs =
      (threadCtxs op stmt args mws i ctx).map fun p => (p.1, p.2, op, stmt, args) := by
  rw [chain_evs_eq, beforeObs_mwBefore_map]

theorem threadCtxs_map_fst {Ctx : Type} (op : Operation) (stmt : String)
    (args : List NamedValue) :
    ∀ (mws : List (Middleware Ctx)) (i : Nat) (ctx : Ctx),
      (threadCtxs op stmt args mws i ctx).map Prod.fst = List.range' i mws.length
  | [], _, _ => by simp [threadCtxs]
  | mw :: rest, i, ctx => by
    have ih := threadCtxs_map_fst op stmt args rest (i + 1) (mw ctx op stmt args).1
    simp [threadCtxs, List.range'_succ, ih]

theorem chain_slots_fst {Ctx : Type} (op : Operation) (stmt : String)
    (args : List NamedValue) :
    ∀ (mws : List (Middleware Ctx)) (i : Nat) (ctx : Ctx),
      (chain op stmt args mws i ctx).slots.map Prod.fst = (List.range' i mws.length).reverse
  | [], _, _ => by simp [chain]
  | mw :: rest, i, ctx => by
    have ih := chain_slots_fst op stmt args rest (i + 1) (mw ctx op stmt args).1
    simp [chain, List.range'_succ, ih]

theorem chain_finObs {Ctx : Type} (op : Operation) (stmt : String)
    (args : List NamedValue) (mws : List (Middleware Ctx)) (i : Nat) (ctx : Ctx) :
    finObs (chain op stmt args mws i ctx).evs = [] := by
  rw [chain_evs_eq, finObs_mwBefore_map]

theorem chain_interceptObs {Ctx : Type} (op : Operation) (stmt : String)
    (args : List NamedValue) (mws : List (Middleware Ctx)) (i : Nat) (ctx : Ctx) :
    interceptObs (chain op stmt args mws i ctx).evs = [] := by
  rw [chain_evs_eq, interceptObs_mwBefore_map]

theorem beforeObs_append {Ctx : Type} (a b : List (Ev Ctx)) :
    beforeObs (a ++ b) = beforeObs a ++ beforeObs b := by
  simp [beforeObs, List.filterMap_append]

theorem finObs_append {Ctx : Type} (a b : List (Ev Ctx)) :
    finObs (a ++ b) = finObs a ++ finObs b := by
  simp [finObs, List.filterMap_append]

theorem interceptObs_append {Ctx : Type} (a b : List (Ev Ctx)) :
    interceptObs (a ++ b) = interceptObs a ++ interceptObs b := by
  simp [interceptObs, List.filterMap_append]

theorem beforeObs_userLog_map {Ctx : Type} (l : List String) :
    beforeObs (l.map (@Ev.userLog Ctx)) = [] := by
  induction l with
  | nil => rfl
  | cons a t ih => simpa [beforeObs] using ih

theorem finObs_userLog_map {Ctx : Type} (l : List String) :
    finObs (l.map (@Ev.userLog Ctx)) = [] := by
  induction l with
  | nil => rfl
  | cons a t ih => simpa [finObs] using ih

theorem interceptObs_userLog_map {Ctx : Type} (l : List String) :
    interceptObs (l.map (@Ev.userLog Ctx)) = [] := by
  induction l with
  | nil => rfl
  | cons a t ih => simpa [interceptObs] using ih

theorem runSlots_finObs {Ctx : Type} (err : Err) :
    ∀ slots : List Slot,
      finObs (@runSlots Ctx err slots) = slots.map fun s => (s.1, err)
  | [] => rfl
  | (i, f) :: rest => by
    have ih := @runSlots_finObs Ctx err rest
    show finObs ((Ev.finCall i err :: (f err).map Ev.userLog) ++ runSlots err rest) = _
    rw [finObs_append]
    have h1 : finObs (@Ev.finCall Ctx i err :: (f err).map Ev.userLog) =
        (i, err) :: finObs ((f err).map (@Ev.userLog Ctx)) := by
      simp [finObs]
    rw [h1, finObs_userLog_map, ih]
    simp

theorem runSlots_beforeObs {Ctx : Type} (err : Err) :
    ∀ slots : List Slot, beforeObs (@runSlots Ctx err slots) = []
  | [] => rfl
  | (i, f) :: rest => by
    have ih := @runSlots_beforeObs Ctx err rest
    show beforeObs ((Ev.finCall i err :: (f err).map Ev.userLog) ++ runSlots err rest) = []
    rw [beforeObs_append]
    have h1 : beforeObs (@Ev.finCall Ctx i err :: (f err).map Ev.userLog) =
        beforeObs ((f err).map (@Ev.userLog Ctx)) := by
      simp [beforeObs]
    rw [h1, beforeObs_userLog_map, ih]
    rfl

theorem runSlots_interceptObs {Ctx : Type} (err : Err) :
    ∀ slots : List Slot, interceptObs (@runSlots Ctx err slots) = []
  | [] => rfl
  | (i, f) :: rest => by
    have ih := @runSlots_interceptObs Ctx err rest
    show interceptObs ((Ev.finCall i err :: (f err).map Ev.userLog) ++ runSlots err rest) = []
    rw [interceptObs_append]
    have h1 : interceptObs (@Ev.finCall Ctx i err :: (f err).map Ev.userLog) =
        interceptObs ((f err).map (@Ev.userLog Ctx)) := by
      simp [interceptObs]
    rw [h1, interceptObs_userLog_map, ih]
    rfl

/-- The real driver calls recorded in a trace, in order. -/
def realCallObs {Ctx : Type} (tr : List (Ev Ctx)) :
    List (Operation × String × List NamedValue) :=
  tr.filterMap fun e =>
    match e with
    | .realCall op stmt args => some (op, stmt, args)
    | _ => none

theorem realCallObs_append {Ctx : Type} (a b : List (Ev Ctx)) :
    realCallObs (a ++ b) = realCallObs a ++ realCallObs b := by
  simp [realCallObs, List.filterMap_append]

theorem realCallObs_userLog_map {Ctx : Type} (l : List String) :
    realCallObs (l.map (@Ev.userLog Ctx)) = [] := by
  induction l with
  | nil => rfl
  | cons a t ih => simpa [realCallObs] using ih

theorem realCallObs_mwBefore_map {Ctx : Type} (op : Operation) (stmt : String)
    (args : List NamedValue) (l : List (Nat × Ctx)) :
    realCallObs (l.map fun p => Ev.mwBefore p.1 p.2 op stmt args) = [] := by
  induction l with
  | nil => rfl
  | cons a t ih => simpa [realCallObs] using ih

theorem chain_realCallObs {Ctx : Type} (op : Operation) (stmt : String)
    (args : List NamedValue) (mws : List (Middleware Ctx)) (i : Nat) (ctx : Ctx) :
    realCallObs (chain op stmt args mws i ctx).evs = [] := by
  rw [chain_evs_eq, realCallObs_mwBefore_map]

theorem runSlots_realCallObs {Ctx : Type} (err : Err) :
    ∀ slots : List Slot, realCallObs (@runSlots Ctx err slots) = []
  | [] => rfl
  | (i, f) :: rest => by
    have ih := @runSlots_realCallObs Ctx err rest
    show realCallObs ((Ev.finCall i err :: (f err).map Ev.userLog) ++ runSlots err rest) = []
    rw [realCallObs_append]
    have h1 : realCallObs (@Ev.finCall Ctx i err :: (f err).map Ev.userLog) =
        realCallObs ((f err).map (@Ev.userLog Ctx)) := by
      simp [realCallObs]
    rw [h1, realCallObs_userLog_map, ih]
    rfl

theorem threadCtxs_length {Ctx : Type} (op : Operation) (stmt : String)
    (args : List NamedValue) (mws : List (Middleware Ctx)) (i : Nat) (ctx : Ctx) :
    (threadCtxs op stmt args mws i ctx).length = mws.length := by
  have h := congrArg List.length (threadCtxs_map_fst op stmt args mws i ctx)
  simpa using h

theorem mwStage_enabled {Ctx : Type} (o : Options Ctx) (op : Operation) (ctx : Ctx)
    (stmt : String) (args : List NamedValue) (h : o.operations op = true) :
    mwStage o op ctx stmt args =
      ((chain op stmt args o.Middlewares 0 ctx).ctx,
       (chain op stmt args o.Middlewares 0 ctx).slots,
       (chain op stmt args o.Middlewares 0 ctx).evs) := by
  simp [mwStage, h, apply_eq_chain]

theorem mwStage_disabled {Ctx : Type} (o : Options Ctx) (op : Operation) (ctx : Ctx)
    (stmt : String) (args : List NamedValue) (h : o.operations op = false) :
    mwStage o op ctx stmt args = (ctx, [], []) := by
  simp [mwStage, h]

theorem interceptStage_some {Ctx : Type} (o : Options Ctx) (f : Interceptor Ctx)
    (h : o.Intercept = some f) (ctx : Ctx) (op : Operation) (stmt : String)
    (args : List NamedValue) :
    interceptStage o ctx op stmt args =
      ((f ctx op stmt args).1, (f ctx op stmt args).2.1, (f ctx op stmt args).2.2,
       [Ev.intercepted ctx op stmt args]) := by
  simp [interceptStage, h]

theorem interceptStage_none {Ctx : Type} (o : Options Ctx)
    (h : o.Intercept = none) (ctx : Ctx) (op : Operation) (stmt : String)
    (args : List NamedValue) :
    interceptStage o ctx op stmt args = (ctx, stmt, args, []) := by
  simp [interceptStage, h]

theorem interceptStage_evs {Ctx : Type} (o : Options Ctx) (ctx : Ctx) (op : Operation)
    (stmt : String) (args : List NamedValue) :
    beforeObs (interceptStage o ctx op stmt args).2.2.2 = [] ∧
    finObs (interceptStage o ctx op stmt args).2.2.2 = [] ∧
    realCallObs (interceptStage o ctx op stmt args).2.2.2 = [] := by
  cases h : o.Intercept <;>
    simp [interceptStage, h, beforeObs, finObs, realCallObs]

/-!  Concrete objects used by counterexamples and witnesses. -/

/-- A cursor advertising no optional capability. -/
def rowsCapsNone : RowsCaps :=
  { nextResultSet := false, columnTypeDatabaseTypeName := false,
    columnTypeLength := false, columnTypeNullable := false,
    columnTypePrecisionScale := false, columnTypeScanType := false }

/-- A middleware that keeps the context and supplies no finalizer. -/
def mwId : Middleware Nat := fun ctx _ _ _ => (ctx, none)

/-- A middleware that increments a numeric context and logs through its
finalizer. -/
def mwStep : Middleware Nat := fun ctx _ _ _ =>
  (ctx + 1, some fun err => [if err = none then "done" else "failed"])

/-- An interceptor that tags the statement and replaces the parameter
list. -/
def interceptEx : Interceptor Nat := fun ctx _ stmt _ =>
  (ctx + 10, stmt ++ " #intercepted", [{ name := "", ordinal := 0, value := .str "intercepted" }])

/-- C1: the claim states that every wrapped facade advertises exactly the
capability set of the concrete object; the rows facade refutes it: a
cursor with no optional capability is wrapped into a facade that still
answers the `driver.RowsNextResultSet` type assertion (`wRows` defines
`HasNextResultSet`/`NextResultSet` unconditionally). -/
theorem claim_C1_counterexample :
    (wrapRows rowsCapsNone).nextResultSet = true ∧ rowsCapsNone.nextResultSet = false :=
  ⟨rfl, rfl⟩

/-- C1 (amended): statement facades advertise exactly the probed
capability set; connection facades advertise `SessionResetter` exactly
when the parent does, advertise `NamedValueChecker` when the parent
does and also whenever the parent has neither optional role (the bare
`*wConn` facade carries `CheckNamedValue` itself), and always advertise
the seven `conn`-interface roles; rows facades advertise
`RowsColumnTypeScanType` exactly when the parent does and always
advertise the remaining five enhancement roles. -/
theorem claim_C1_capability_sets :
    (∀ s : StmtCaps, wrapStmt s = s) ∧
    (∀ c : ConnCaps,
      (wrapConn c).sessionResetter = c.sessionResetter ∧
      (wrapConn c).namedValueChecker = (c.namedValueChecker || !c.sessionResetter) ∧
      (wrapConn c).pinger = true ∧ (wrapConn c).execer = true ∧
      (wrapConn c).execerContext = true ∧ (wrapConn c).queryer = true ∧
      (wrapConn c).queryerContext = true ∧ (wrapConn c).connPrepareContext = true ∧
      (wrapConn c).connBeginTx = true) ∧
    (∀ r : RowsCaps,
      (wrapRows r).columnTypeScanType = r.columnTypeScanType ∧
      (wrapRows r).nextResultSet = true ∧
      (wrapRows r).columnTypeDatabaseTypeName = true ∧
      (wrapRows r).columnTypeLength = true ∧
      (wrapRows r).columnTypeNullable = true ∧
      (wrapRows r).columnTypePrecisionScale = true) := by
  refine ⟨?_, ?_, ?_⟩
  · rintro ⟨a, b, c, d⟩
    cases a <;> cases b <;> cases c <;> cases d <;> rfl
  · rintro ⟨p, e, ec, q, qc, pc, bt, nvc, sr⟩
    cases nvc <;> cases sr <;> simp [wrapConn]
  · rintro ⟨a, b, c, d, e, f⟩
    cases f <;> simp [wrapRows]

/-- C5: the claim states that the default enabled-operation set is all
operations except `ping`; but the `defaultOperations` map also omits
`rows_next`, so with a configured middleware and no `WithOperations`
restriction the `rows_next` operation is disabled. -/
theorem claim_C5_counterexample :
    (prepareOptions [WithMiddleware [mwId]]).2 = true ∧
    (prepareOptions [WithMiddleware [mwId]]).1.operations Operation.rowsNext = false ∧
    (prepareOptions [WithMiddleware [mwId]]).1.operations Operation.exec = true :=
  ⟨rfl, rfl, rfl⟩

/-- C5 (amended): when the folded options carry at least one middleware
or an interceptor and no explicit operation list, the resolved
enabled-operation set is exactly `defaultOperations`, which enables an
operation iff it is neither `ping` nor `rows_next`. -/
theorem claim_C5_default_operations {Ctx : Type} (options : List (Opt Ctx))
    (hop : ((options.foldl (fun o option => option o) ({} : Options Ctx)).Middlewares.isEmpty &&
      (options.foldl (fun o option => option o) ({} : Options Ctx)).Intercept.isNone) = false)
    (hops : (options.foldl (fun o option => option o) ({} : Options Ctx)).Operations = []) :
    (prepareOptions options).1.operations = defaultOperations ∧
    ∀ op : Operation,
      defaultOperations op = true ↔ (op ≠ Operation.ping ∧ op ≠ Operation.rowsNext) := by
  constructor
  · simp [prepareOptions, hop, hops]
  · intro op
    cases op <;> simp [defaultOperations]

/-- C5 witness: the amended theorem applied to a single-middleware
option list. -/
theorem claim_C5_witness :
    (prepareOptions [WithMiddleware [mwId]]).1.operations = defaultOperations ∧
    ∀ op : Operation,
      defaultOperations op = true ↔ (op ≠ Operation.ping ∧ op ≠ Operation.rowsNext) :=
  claim_C5_default_operations [WithMiddleware [mwId]] (by rfl) (by rfl)

/-- C6: with an option list that configures no middleware and no
interceptor, `Wrap`, `WrapConn` and `WrapConnector` hand back the
original object undecorated. -/
theorem claim_C6_noop {α Ctx : Type} (x : α) (options : List (Opt Ctx))
    (hmw : (options.foldl (fun o option => option o) ({} : Options Ctx)).Middlewares = [])
    (hint : (options.foldl (fun o option => option o) ({} : Options Ctx)).Intercept = none) :
    Wrap x options = Wrapped.orig x ∧ WrapConn x options = Wrapped.orig x ∧
      WrapConnector x options = Wrapped.orig x := by
  have h : @prepareOptions Ctx options =
      (options.foldl (fun o option => option o) {}, false) := by
    simp [prepareOptions, hmw, hint]
  exact ⟨by simp [Wrap, h], by simp [WrapConn, h], by simp [WrapConnector, h]⟩

/-- C6 witness: wrapping with only a `WithOperations` restriction (no
middleware, no interceptor) returns the original object. -/
theorem claim_C6_witness :
    Wrap (0 : Nat) [@WithOperations Nat [Operation.exec]] = Wrapped.orig 0 ∧
    WrapConn (0 : Nat) [@WithOperations Nat [Operation.exec]] = Wrapped.orig 0 ∧
    WrapConnector (0 : Nat) [@WithOperations Nat [Operation.exec]] = Wrapped.orig 0 :=
  claim_C6_noop 0 [WithOperations [Operation.exec]] (by rfl) (by rfl)

/-- C10: when the concrete connection lacks `driver.ConnPrepareContext`,
the decorated `PrepareContext` still succeeds, returning a wrapped
statement whose delegate is nil; `NumInput` on that statement returns
`-1`. -/
theorem claim_C10_nil_delegate {Ctx : Type} (o : Options Ctx) (parent : ParentConn Ctx)
    (ctx : Ctx) (query : String) (h : parent.hasConnPrepareContext = false) :
    ∃ s : WStmt Ctx, (wConnPrepareContext o parent ctx query).1 = Except.ok s ∧
      s.parent = none ∧ wStmtNumInput s = -1 := by
  rcases hi : interceptStage o ctx Operation.prepare query [] with ⟨ctx1, query1, args1, evI⟩
  rcases hm : mwStage o Operation.prepare ctx1 query1 [] with ⟨ctx2, fins, evM⟩
  refine ⟨{ ctx := ctx2, parent := none, query := query1, options := o }, ?_, rfl, rfl⟩
  simp [wConnPrepareContext, hi, hm, h]

/-- C10 witness: the theorem applied to default options and a parent
without the context-prepare capability. -/
theorem claim_C10_witness :
    ∃ s : WStmt Nat,
      (wConnPrepareContext ({} : Options Nat) ({} : ParentConn Nat) 0 "SELECT 1").1 =
        Except.ok s ∧ s.parent = none ∧ wStmtNumInput s = -1 :=
  claim_C10_nil_delegate {} {} 0 "SELECT 1" (by rfl)

/-- C2: middleware before-hooks run in configuration order — each
middleware observing the context returned by its predecessor — and the
finalizers are collected, and then invoked by the decorated method, in
exactly reverse configuration order.  Stated both for the pipeline
core `apply` (shared by every enabled operation) and for the decorated
`ExecContext`. -/
theorem claim_C2_ordering {Ctx : Type} (ctx : Ctx) (mws : List (Middleware Ctx))
    (op : Operation) (stmt : String) (args : List NamedValue)
    (o : Options Ctx) (parent : ParentConn Ctx) (query : String) (qargs : List NamedValue)
    (hmw : o.Middlewares = mws) (hEn : o.operations Operation.exec = true)
    (hCap : parent.hasExecerContext = true) :
    beforeObs (apply ctx mws op stmt args).2.2 =
      (threadCtxs op stmt args mws 0 ctx).map (fun p => (p.1, p.2, op, stmt, args)) ∧
    (threadCtxs op stmt args mws 0 ctx).map Prod.fst = List.range mws.length ∧
    (apply ctx mws op stmt args).2.1.map Prod.fst = (List.range mws.length).reverse ∧
    (beforeObs (wConnExecContext o parent ctx query qargs).2).map (fun p => p.1) =
      List.range mws.length ∧
    (finObs (wConnExecContext o parent ctx query qargs).2).map Prod.fst =
      (List.range mws.length).reverse := by
  rcases hi : interceptStage o ctx Operation.exec query qargs with ⟨c1, q1, a1, e1⟩
  have hie := interceptStage_evs o ctx Operation.exec query qargs
  rw [hi] at hie
  have hm := mwStage_enabled o Operation.exec c1 q1 a1 hEn
  have hw : wConnExecContext o parent ctx query qargs =
      (parent.execContextErr (chain Operation.exec q1 a1 o.Middlewares 0 c1).ctx q1 a1,
       e1 ++ (chain Operation.exec q1 a1 o.Middlewares 0 c1).evs ++
         [Ev.realCall Operation.exec q1 a1] ++
         runSlots (parent.execContextErr (chain Operation.exec q1 a1 o.Middlewares 0 c1).ctx q1 a1)
           (chain Operation.exec q1 a1 o.Middlewares 0 c1).slots) := by
    simp [wConnExecContext, hCap, hi, hm]
  refine ⟨?_, ?_, ?_, ?_, ?_⟩
  · rw [apply_eq_chain]
    exact chain_beforeObs op stmt args mws 0 ctx
  · rw [threadCtxs_map_fst, List.range_eq_range']
  · rw [apply_eq_chain, chain_slots_fst, List.range_eq_range']
  · rw [hw]
    have hb : beforeObs [@Ev.realCall Ctx Operation.exec q1 a1] = [] := by
      simp [beforeObs]
    dsimp only
    rw [beforeObs_append, beforeObs_append, beforeObs_append, hie.1, runSlots_beforeObs,
      chain_beforeObs, hb, hmw]
    simp only [List.nil_append, List.append_nil]
    have hcomp : ((threadCtxs Operation.exec q1 a1 mws 0 c1).map
        (fun p => (p.1, p.2, Operation.exec, q1, a1))).map (fun p => p.1) =
        (threadCtxs Operation.exec q1 a1 mws 0 c1).map Prod.fst := by
      rw [List.map_map]
      rfl
    rw [hcomp, threadCtxs_map_fst, List.range_eq_range']
  · rw [hw]
    have hb : finObs [@Ev.realCall Ctx Operation.exec q1 a1] = [] := by
      simp [finObs]
    dsimp only
    rw [finObs_append, finObs_append, finObs_append, hie.2.1, runSlots_finObs,
      chain_finObs, hb, hmw]
    simp only [List.nil_append, List.append_nil]
    have hcomp : ((chain Operation.exec q1 a1 mws 0 c1).slots.map
        (fun s => (s.1, parent.execContextErr (chain Operation.exec q1 a1 mws 0 c1).ctx q1 a1))).map
          Prod.fst =
        (chain Operation.exec q1 a1 mws 0 c1).slots.map Prod.fst := by
      rw [List.map_map]
      rfl
    rw [hcomp, chain_slots_fst, List.range_eq_range']

/-- C2 witness: two middlewares around an enabled `exec`. -/
theorem claim_C2_witness :
    beforeObs (apply 0 [mwStep, mwStep] Operation.exec "S" []).2.2 =
      (threadCtxs Operation.exec "S" [] [mwStep, mwStep] 0 0).map
        (fun p => (p.1, p.2, Operation.exec, "S", [])) ∧
    (threadCtxs Operation.exec "S" [] [mwStep, mwStep] 0 0).map Prod.fst = List.range 2 ∧
    (apply 0 [mwStep, mwStep] Operation.exec "S" []).2.1.map Prod.fst =
      (List.range 2).reverse ∧
    (beforeObs (wConnExecContext
        { Middlewares := [mwStep, mwStep], operations := defaultOperations }
        { hasExecerContext := true } 0 "S" []).2).map (fun p => p.1) = List.range 2 ∧
    (finObs (wConnExecContext
        { Middlewares := [mwStep, mwStep], operations := defaultOperations }
        { hasExecerContext := true } 0 "S" []).2).map Prod.fst = (List.range 2).reverse :=
  claim_C2_ordering 0 [mwStep, mwStep] Operation.exec "S" []
    { Middlewares := [mwStep, mwStep], operations := defaultOperations }
    { hasExecerContext := true } "S" [] rfl rfl rfl

/-- C3: for an enabled operation, every configured middleware's
finalizer slot is invoked exactly once — the invocation list is
exactly one entry per middleware, in reverse configuration order —
and every invocation carries the identical realized error, namely the
error value the decorated call returns; that value is exactly the
parent driver's outcome, so a middleware declining to supply a
finalizer (substituted by a no-op) never surfaces as an error. -/
theorem claim_C3_finalizer_once {Ctx : Type} (o : Options Ctx) (parent : ParentConn Ctx)
    (ctx : Ctx) (query : String) (args : List NamedValue)
    (hEn : o.operations Operation.exec = true) (hCap : parent.hasExecerContext = true) :
    finObs (wConnExecContext o parent ctx query args).2 =
      ((List.range o.Middlewares.length).reverse).map
        (fun i => (i, (wConnExecContext o parent ctx query args).1)) ∧
    (wConnExecContext o parent ctx query args).1 =
      parent.execContextErr
        (chain Operation.exec (interceptStage o ctx Operation.exec query args).2.1
          (interceptStage o ctx Operation.exec query args).2.2.1 o.Middlewares 0
          (interceptStage o ctx Operation.exec query args).1).ctx
        (interceptStage o ctx Operation.exec query args).2.1
        (interceptStage o ctx Operation.exec query args).2.2.1 := by
  rcases hi : interceptStage o ctx Operation.exec query args with ⟨c1, q1, a1, e1⟩
  have hie := interceptStage_evs o ctx Operation.exec query args
  rw [hi] at hie
  have hm := mwStage_enabled o Operation.exec c1 q1 a1 hEn
  have hw : wConnExecContext o parent ctx query args =
      (parent.execContextErr (chain Operation.exec q1 a1 o.Middlewares 0 c1).ctx q1 a1,
       e1 ++ (chain Operation.exec q1 a1 o.Middlewares 0 c1).evs ++
         [Ev.realCall Operation.exec q1 a1] ++
         runSlots (parent.execContextErr (chain Operation.exec q1 a1 o.Middlewares 0 c1).ctx q1 a1)
           (chain Operation.exec q1 a1 o.Middlewares 0 c1).slots) := by
    simp [wConnExecContext, hCap, hi, hm]
  constructor
  · rw [hw]
    simp only [finObs_append, hie.2.1, runSlots_finObs, chain_finObs]
    have hb : finObs [@Ev.realCall Ctx Operation.exec q1 a1] = [] := by
      simp [finObs]
    rw [hb]
    have hs := chain_slots_fst Operation.exec q1 a1 o.Middlewares 0 c1
    calc ([] : List (Nat × Err)) ++ [] ++ [] ++
          (chain Operation.exec q1 a1 o.Middlewares 0 c1).slots.map
            (fun s => (s.1, parent.execContextErr
              (chain Operation.exec q1 a1 o.Middlewares 0 c1).ctx q1 a1))
        = ((chain Operation.exec q1 a1 o.Middlewares 0 c1).slots.map Prod.fst).map
            (fun i => (i, parent.execContextErr
              (chain Operation.exec q1 a1 o.Middlewares 0 c1).ctx q1 a1)) := by
          simp [List.map_map, Function.comp]
      _ = _ := by rw [hs, List.range_eq_range']
  · rw [hw]

/-- C3 witness: one finalizer-supplying middleware and one declining
middleware around an `exec` that fails. -/
theorem claim_C3_witness :
    finObs (wConnExecContext
        { Middlewares := [mwStep, mwId], operations := defaultOperations }
        { hasExecerContext := true,
          execContextErr := fun _ _ _ => some (GoError.mk "failed") } 0 "S" []).2 =
      ((List.range 2).reverse).map
        (fun i => (i, (wConnExecContext
          { Middlewares := [mwStep, mwId], operations := defaultOperations }
          { hasExecerContext := true,
            execContextErr := fun _ _ _ => some (GoError.mk "failed") } 0 "S" []).1)) ∧
    (wConnExecContext
        { Middlewares := [mwStep, mwId], operations := defaultOperations }
        { hasExecerContext := true,
          execContextErr := fun _ _ _ => some (GoError.mk "failed") } 0 "S" []).1 =
      (({ hasExecerContext := true,
          execContextErr := fun _ _ _ => some (GoError.mk "failed") } : ParentConn Nat)).execContextErr
        (chain Operation.exec
          (interceptStage ({ Middlewares := [mwStep, mwId], operations := defaultOperations } :
            Options Nat) 0 Operation.exec "S" []).2.1
          (interceptStage ({ Middlewares := [mwStep, mwId], operations := defaultOperations } :
            Options Nat) 0 Operation.exec "S" []).2.2.1
          [mwStep, mwId] 0
          (interceptStage ({ Middlewares := [mwStep, mwId], operations := defaultOperations } :
            Options Nat) 0 Operation.exec "S" []).1).ctx
        (interceptStage ({ Middlewares := [mwStep, mwId], operations := defaultOperations } :
          Options Nat) 0 Operation.exec "S" []).2.1
        (interceptStage ({ Middlewares := [mwStep, mwId], operations := defaultOperations } :
          Options Nat) 0 Operation.exec "S" []).2.2.1 :=
  claim_C3_finalizer_once
    { Middlewares := [mwStep, mwId], operations := defaultOperations }
    { hasExecerContext := true,
      execContextErr := fun _ _ _ => some (GoError.mk "failed") } 0 "S" [] rfl rfl

/-- Options with two middlewares and an interceptor, resolved to the
default operation set (no `WithOperations` restriction). -/
def oEx : Options Nat :=
  { Middlewares := [mwStep, mwStep], Intercept := some interceptEx,
    Operations := [], operations := defaultOperations }

/-- C4: the claim states that for every excluded operation a configured
interceptor still fires exactly once; `rows_next` refutes it — the
decorated cursor advance has no interceptor stage at all, so with an
interceptor configured and `rows_next` excluded (as it is under the
default operation set) no interception event occurs. -/
theorem claim_C4_counterexample :
    oEx.Intercept.isSome = true ∧ oEx.operations Operation.rowsNext = false ∧
    interceptObs (wRowsNext oEx { nextErr := none } 0).2 = [] ∧
    beforeObs (wRowsNext oEx { nextErr := none } 0).2 = [] :=
  ⟨rfl, rfl, rfl, rfl⟩

/-- C4 (amended): for an operation excluded from the enabled set no
middleware before-hook or finalizer fires; on `exec` — and the other
statement-bearing operations, which have an interceptor stage — a
configured interceptor still fires exactly once, with the original
statement and parameters; on `rows_next` (which has no interceptor
stage) the interceptor never fires. -/
theorem claim_C4_filtering {Ctx : Type} (o : Options Ctx) (parent : ParentConn Ctx)
    (rows : ParentRows) (ctx : Ctx) (query : String) (args : List NamedValue)
    (f : Interceptor Ctx)
    (hI : o.Intercept = some f) (hEx : o.operations Operation.exec = false)
    (hCap : parent.hasExecerContext = true)
    (hRn : o.operations Operation.rowsNext = false) :
    beforeObs (wConnExecContext o parent ctx query args).2 = [] ∧
    finObs (wConnExecContext o parent ctx query args).2 = [] ∧
    interceptObs (wConnExecContext o parent ctx query args).2 =
      [(ctx, Operation.exec, query, args)] ∧
    beforeObs (wRowsNext o rows ctx).2 = [] ∧
    finObs (wRowsNext o rows ctx).2 = [] ∧
    interceptObs (wRowsNext o rows ctx).2 = [] := by
  have hsi := interceptStage_some o f hI ctx Operation.exec query args
  have hm := mwStage_disabled o Operation.exec (f ctx Operation.exec query args).1
    (f ctx Operation.exec query args).2.1 (f ctx Operation.exec query args).2.2 hEx
  have hw : wConnExecContext o parent ctx query args =
      (parent.execContextErr (f ctx Operation.exec query args).1
        (f ctx Operation.exec query args).2.1 (f ctx Operation.exec query args).2.2,
       [Ev.intercepted ctx Operation.exec query args] ++ [] ++
         [Ev.realCall Operation.exec (f ctx Operation.exec query args).2.1
           (f ctx Operation.exec query args).2.2] ++ []) := by
    simp [wConnExecContext, hCap, hsi, hm, runSlots]
  have hr : wRowsNext o rows ctx =
      (rows.nextErr, [] ++ [Ev.realCall Operation.rowsNext "" []] ++ []) := by
    simp [wRowsNext, mwStage_disabled o Operation.rowsNext ctx "" [] hRn, runSlots]
  rw [hw, hr]
  refine ⟨?_, ?_, ?_, ?_, ?_, ?_⟩ <;>
    simp [beforeObs, finObs, interceptObs]

/-- C4 witness: the amended theorem at concrete options with an
interceptor and only `query` enabled. -/
theorem claim_C4_witness :
    beforeObs (wConnExecContext
        { Middlewares := [mwStep], Intercept := some interceptEx,
          operations := fun op => op = Operation.query }
        { hasExecerContext := true } 0 "S" []).2 = [] ∧
    finObs (wConnExecContext
        { Middlewares := [mwStep], Intercept := some interceptEx,
          operations := fun op => op = Operation.query }
        { hasExecerContext := true } 0 "S" []).2 = [] ∧
    interceptObs (wConnExecContext
        { Middlewares := [mwStep], Intercept := some interceptEx,
          operations := fun op => op = Operation.query }
        { hasExecerContext := true } 0 "S" []).2 = [(0, Operation.exec, "S", [])] ∧
    beforeObs (wRowsNext
        { Middlewares := [mwStep], Intercept := some interceptEx,
          operations := fun op => op = Operation.query }
        { nextErr := some GoError.eof } 0).2 = [] ∧
    finObs (wRowsNext
        { Middlewares := [mwStep], Intercept := some interceptEx,
          operations := fun op => op = Operation.query }
        { nextErr := some GoError.eof } 0).2 = [] ∧
    interceptObs (wRowsNext
        { Middlewares := [mwStep], Intercept := some interceptEx,
          operations := fun op => op = Operation.query }
        { nextErr := some GoError.eof } 0).2 = [] :=
  claim_C4_filtering
    { Middlewares := [mwStep], Intercept := some interceptEx,
      operations := fun op => op = Operation.query }
    { hasExecerContext := true } { nextErr := some GoError.eof } 0 "S" []
    interceptEx rfl (by decide) rfl (by decide)

theorem interceptObs_cons_intercepted {Ctx : Type} (ctx0 : Ctx) (op0 : Operation)
    (stmt0 : String) (args0 : List NamedValue) (l : List (Ev Ctx)) :
    interceptObs (Ev.intercepted ctx0 op0 stmt0 args0 :: l) =
      (ctx0, op0, stmt0, args0) :: interceptObs l := by
  simp [interceptObs]

theorem beforeObs_cons_intercepted {Ctx : Type} (ctx0 : Ctx) (op0 : Operation)
    (stmt0 : String) (args0 : List NamedValue) (l : List (Ev Ctx)) :
    beforeObs (Ev.intercepted ctx0 op0 stmt0 args0 :: l) = beforeObs l := by
  simp [beforeObs]

theorem realCallObs_cons_intercepted {Ctx : Type} (ctx0 : Ctx) (op0 : Operation)
    (stmt0 : String) (args0 : List NamedValue) (l : List (Ev Ctx)) :
    realCallObs (Ev.intercepted ctx0 op0 stmt0 args0 :: l) = realCallObs l := by
  simp [realCallObs]

theorem interceptObs_realCall {Ctx : Type} (opc : Operation) (stmtc : String)
    (argsc : List NamedValue) :
    interceptObs [@Ev.realCall Ctx opc stmtc argsc] = [] := by
  simp [interceptObs]

theorem beforeObs_realCall {Ctx : Type} (opc : Operation) (stmtc : String)
    (argsc : List NamedValue) :
    beforeObs [@Ev.realCall Ctx opc stmtc argsc] = [] := by
  simp [beforeObs]

theorem realCallObs_realCall {Ctx : Type} (opc : Operation) (stmtc : String)
    (argsc : List NamedValue) :
    realCallObs [@Ev.realCall Ctx opc stmtc argsc] = [(opc, stmtc, argsc)] := by
  simp [realCallObs]

theorem beforeObs_proj_replicate {Ctx : Type} (op : Operation) (stmt : String)
    (args : List NamedValue) (mws : List (Middleware Ctx)) (i : Nat) (ctx : Ctx) :
    (beforeObs (chain op stmt args mws i ctx).evs).map (fun q => (q.2.2.2.1, q.2.2.2.2)) =
      List.replicate mws.length (stmt, args) := by
  rw [chain_beforeObs, List.map_map]
  have hf : ((fun q : Nat × Ctx × Operation × String × List NamedValue =>
      (q.2.2.2.1, q.2.2.2.2)) ∘ fun p : Nat × Ctx => (p.1, p.2, op, stmt, args)) =
      fun _ => (stmt, args) := rfl
  rw [hf, List.map_const', threadCtxs_length]

/-- Observations on the canonical trace shape of a statement-bearing
decorated method whose interceptor fired: the interception event
first, the middleware before-hooks (observing `stmt1`/`args1`), the
real call (observing `stmtc`/`argsc`), the finalizers. -/
theorem trace_shape_obs {Ctx : Type} (ctx0 : Ctx) (op0 op1 opc : Operation)
    (stmt0 stmt1 stmtc : String) (args0 args1 argsc : List NamedValue)
    (mws : List (Middleware Ctx)) (c1 : Ctx) (err : Err) :
    interceptObs (Ev.intercepted ctx0 op0 stmt0 args0 ::
        ((chain op1 stmt1 args1 mws 0 c1).evs ++ [Ev.realCall opc stmtc argsc] ++
          runSlots err (chain op1 stmt1 args1 mws 0 c1).slots)) =
      [(ctx0, op0, stmt0, args0)] ∧
    (Ev.intercepted ctx0 op0 stmt0 args0 ::
        ((chain op1 stmt1 args1 mws 0 c1).evs ++ [Ev.realCall opc stmtc argsc] ++
          runSlots err (chain op1 stmt1 args1 mws 0 c1).slots)).head? =
      some (Ev.intercepted ctx0 op0 stmt0 args0) ∧
    (beforeObs (Ev.intercepted ctx0 op0 stmt0 args0 ::
        ((chain op1 stmt1 args1 mws 0 c1).evs ++ [Ev.realCall opc stmtc argsc] ++
          runSlots err (chain op1 stmt1 args1 mws 0 c1).slots))).map
        (fun q => (q.2.2.2.1, q.2.2.2.2)) =
      List.replicate mws.length (stmt1, args1) ∧
    realCallObs (Ev.intercepted ctx0 op0 stmt0 args0 ::
        ((chain op1 stmt1 args1 mws 0 c1).evs ++ [Ev.realCall opc stmtc argsc] ++
          runSlots err (chain op1 stmt1 args1 mws 0 c1).slots)) =
      [(opc, stmtc, argsc)] := by
  refine ⟨?_, rfl, ?_, ?_⟩
  · rw [interceptObs_cons_intercepted, interceptObs_append, interceptObs_append,
      chain_interceptObs, interceptObs_realCall, runSlots_interceptObs]
    rfl
  · rw [beforeObs_cons_intercepted, beforeObs_append, beforeObs_append,
      beforeObs_realCall, runSlots_beforeObs, List.append_nil, List.append_nil]
    exact beforeObs_proj_replicate op1 stmt1 args1 mws 0 c1
  · rw [realCallObs_cons_intercepted, realCallObs_append, realCallObs_append,
      chain_realCallObs, realCallObs_realCall, runSlots_realCallObs]
    rfl

/-- A prepared statement facade over a context-capable parent, with
the interceptor and two middlewares of the running example. -/
def stmtEx : WStmt Nat :=
  { ctx := 0, parent := some { hasStmtExecContext := true }, query := "DO ?",
    options := oEx }

/-- C9: the claim states that the statement the interceptor returns is
exactly what middlewares observe, in particular for `stmt_exec`; the
legacy statement-exec path refutes it — the interceptor's rewritten
statement (`"DO ? #intercepted"`) is discarded and the middleware
before-hook observes the stored query text `"DO ?"`. -/
theorem claim_C9_counterexample :
    (interceptEx 0 Operation.stmtExec "DO ?" (namedValues [Value.int 1])).2.1 =
      "DO ? #intercepted" ∧
    (beforeObs (wStmtExec stmtEx [Value.int 1]).2).map (fun q => q.2.2.2.1) =
      ["DO ?", "DO ?"] ∧
    ("DO ? #intercepted" : String) ≠ "DO ?" := by
  refine ⟨rfl, by rfl, by decide⟩

/-- C9 (amended): the interceptor runs strictly before any middleware
on all statement-bearing operations, and its rewritten context and
parameters are what the middlewares and the real call observe.  Its
rewritten statement is what the middlewares and the real call observe
on connection-level `exec` (likewise `query`/`prepare`); on
`stmt_exec`/`stmt_query` the rewritten statement is discarded — the
middlewares observe the statement's stored query text — while the
rewritten parameters still flow to the middlewares and the real
call. -/
theorem claim_C9_interceptor_first {Ctx : Type} (o : Options Ctx)
    (parent : ParentConn Ctx) (s : WStmt Ctx) (p : ParentStmt Ctx) (ctx : Ctx)
    (query : String) (args : List NamedValue) (vargs : List Value) (f : Interceptor Ctx)
    (hI : o.Intercept = some f) (hsI : s.options.Intercept = some f)
    (hEn : o.operations Operation.exec = true)
    (hsEn : s.options.operations Operation.stmtExec = true)
    (hCap : parent.hasExecerContext = true)
    (hsp : s.parent = some p) (hpc : p.hasStmtExecContext = true) :
    (interceptObs (wConnExecContext o parent ctx query args).2 =
        [(ctx, Operation.exec, query, args)] ∧
      (wConnExecContext o parent ctx query args).2.head? =
        some (Ev.intercepted ctx Operation.exec query args) ∧
      (beforeObs (wConnExecContext o parent ctx query args).2).map
          (fun q => (q.2.2.2.1, q.2.2.2.2)) =
        List.replicate o.Middlewares.length
          ((f ctx Operation.exec query args).2.1, (f ctx Operation.exec query args).2.2) ∧
      realCallObs (wConnExecContext o parent ctx query args).2 =
        [(Operation.exec, (f ctx Operation.exec query args).2.1,
          (f ctx Operation.exec query args).2.2)]) ∧
    (interceptObs (wStmtExecContext s ctx args).2 =
        [(s.ctx, Operation.stmtExec, s.query, args)] ∧
      (wStmtExecContext s ctx args).2.head? =
        some (Ev.intercepted s.ctx Operation.stmtExec s.query args) ∧
      (beforeObs (wStmtExecContext s ctx args).2).map
          (fun q => (q.2.2.2.1, q.2.2.2.2)) =
        List.replicate s.options.Middlewares.length
          (s.query, (f s.ctx Operation.stmtExec s.query args).2.2) ∧
      realCallObs (wStmtExecContext s ctx args).2 =
        [(Operation.stmtExec, s.query, (f s.ctx Operation.stmtExec s.query args).2.2)]) ∧
    (interceptObs (wStmtExec s vargs).2 =
        [(s.ctx, Operation.stmtExec, s.query, namedValues vargs)] ∧
      (wStmtExec s vargs).2.head? =
        some (Ev.intercepted s.ctx Operation.stmtExec s.query (namedValues vargs)) ∧
      (beforeObs (wStmtExec s vargs).2).map (fun q => (q.2.2.2.1, q.2.2.2.2)) =
        List.replicate s.options.Middlewares.length
          (s.query, namedValues (values
            (f s.ctx Operation.stmtExec s.query (namedValues vargs)).2.2)) ∧
      realCallObs (wStmtExec s vargs).2 =
        [(Operation.stmtExec, s.query, namedValues (values
          (f s.ctx Operation.stmtExec s.query (namedValues vargs)).2.2))]) := by
  have hsi := interceptStage_some o f hI ctx Operation.exec query args
  have hm := mwStage_enabled o Operation.exec (f ctx Operation.exec query args).1
    (f ctx Operation.exec query args).2.1 (f ctx Operation.exec query args).2.2 hEn
  have hw : wConnExecContext o parent ctx query args =
      (parent.execContextErr
        (chain Operation.exec (f ctx Operation.exec query args).2.1
          (f ctx Operation.exec query args).2.2 o.Middlewares 0
          (f ctx Operation.exec query args).1).ctx
        (f ctx Operation.exec query args).2.1 (f ctx Operation.exec query args).2.2,
       Ev.intercepted ctx Operation.exec query args ::
         ((chain Operation.exec (f ctx Operation.exec query args).2.1
            (f ctx Operation.exec query args).2.2 o.Middlewares 0
            (f ctx Operation.exec query args).1).evs ++
          [Ev.realCall Operation.exec (f ctx Operation.exec query args).2.1
            (f ctx Operation.exec query args).2.2] ++
          runSlots (parent.execContextErr
            (chain Operation.exec (f ctx Operation.exec query args).2.1
              (f ctx Operation.exec query args).2.2 o.Middlewares 0
              (f ctx Operation.exec query args).1).ctx
            (f ctx Operation.exec query args).2.1 (f ctx Operation.exec query args).2.2)
            (chain Operation.exec (f ctx Operation.exec query args).2.1
              (f ctx Operation.exec query args).2.2 o.Middlewares 0
              (f ctx Operation.exec query args).1).slots)) := by
    simp [wConnExecContext, hCap, hsi, hm, List.append_assoc]
  have hw2 : wStmtExecContext s ctx args =
      (p.execContextErr
        (chain Operation.stmtExec s.query (f s.ctx Operation.stmtExec s.query args).2.2
          s.options.Middlewares 0 (f s.ctx Operation.stmtExec s.query args).1).ctx
        (f s.ctx Operation.stmtExec s.query args).2.2,
       Ev.intercepted s.ctx Operation.stmtExec s.query args ::
         ((chain Operation.stmtExec s.query (f s.ctx Operation.stmtExec s.query args).2.2
            s.options.Middlewares 0 (f s.ctx Operation.stmtExec s.query args).1).evs ++
          [Ev.realCall Operation.stmtExec s.query
            (f s.ctx Operation.stmtExec s.query args).2.2] ++
          runSlots (p.execContextErr
            (chain Operation.stmtExec s.query (f s.ctx Operation.stmtExec s.query args).2.2
              s.options.Middlewares 0 (f s.ctx Operation.stmtExec s.query args).1).ctx
            (f s.ctx Operation.stmtExec s.query args).2.2)
            (chain Operation.stmtExec s.query (f s.ctx Operation.stmtExec s.query args).2.2
              s.options.Middlewares 0 (f s.ctx Operation.stmtExec s.query args).1).slots)) := by
    have hm2 := mwStage_enabled s.options Operation.stmtExec
      (f s.ctx Operation.stmtExec s.query args).1 s.query
      (f s.ctx Operation.stmtExec s.query args).2.2 hsEn
    simp [wStmtExecContext, hsI, hsp, hpc, hm2, List.append_assoc]
  have hw3 : wStmtExec s vargs =
      (p.execErr (values (f s.ctx Operation.stmtExec s.query (namedValues vargs)).2.2),
       Ev.intercepted s.ctx Operation.stmtExec s.query (namedValues vargs) ::
         ((chain Operation.stmtExec s.query
            (namedValues (values (f s.ctx Operation.stmtExec s.query (namedValues vargs)).2.2))
            s.options.Middlewares 0
            (f s.ctx Operation.stmtExec s.query (namedValues vargs)).1).evs ++
          [Ev.realCall Operation.stmtExec s.query
            (namedValues (values
              (f s.ctx Operation.stmtExec s.query (namedValues vargs)).2.2))] ++
          runSlots (p.execErr (values
            (f s.ctx Operation.stmtExec s.query (namedValues vargs)).2.2))
            (chain Operation.stmtExec s.query
              (namedValues (values
                (f s.ctx Operation.stmtExec s.query (namedValues vargs)).2.2))
              s.options.Middlewares 0
              (f s.ctx Operation.stmtExec s.query (namedValues vargs)).1).slots)) := by
    have hsi3 := interceptStage_some s.options f hsI s.ctx Operation.stmtExec s.query
      (namedValues vargs)
    have hm3 := mwStage_enabled s.options Operation.stmtExec
      (f s.ctx Operation.stmtExec s.query (namedValues vargs)).1 s.query
      (namedValues (values (f s.ctx Operation.stmtExec s.query (namedValues vargs)).2.2)) hsEn
    simp [wStmtExec, hsi3, hsI, hsp, hm3, List.append_assoc]
  rw [hw, hw2, hw3]
  dsimp only
  exact ⟨trace_shape_obs ctx Operation.exec Operation.exec Operation.exec query
      (f ctx Operation.exec query args).2.1 (f ctx Operation.exec query args).2.1 args
      (f ctx Operation.exec query args).2.2 (f ctx Operation.exec query args).2.2
      o.Middlewares (f ctx Operation.exec query args).1 _,
    trace_shape_obs s.ctx Operation.stmtExec Operation.stmtExec Operation.stmtExec s.query
      s.query s.query args (f s.ctx Operation.stmtExec s.query args).2.2
      (f s.ctx Operation.stmtExec s.query args).2.2 s.options.Middlewares
      (f s.ctx Operation.stmtExec s.query args).1 _,
    trace_shape_obs s.ctx Operation.stmtExec Operation.stmtExec Operation.stmtExec s.query
      s.query s.query (namedValues vargs)
      (namedValues (values (f s.ctx Operation.stmtExec s.query (namedValues vargs)).2.2))
      (namedValues (values (f s.ctx Operation.stmtExec s.query (namedValues vargs)).2.2))
      s.options.Middlewares (f s.ctx Operation.stmtExec s.query (namedValues vargs)).1 _⟩

/-- C9 witness: the amended theorem at the running example — the
interceptor fires first on conn-level exec with the original
statement, and on the legacy statement-exec path the middleware hooks
observe the stored query with the interceptor's rewritten
parameters. -/
theorem claim_C9_witness :
    interceptObs (wConnExecContext oEx { hasExecerContext := true } 0 "SELECT ?" []).2 =
      [(0, Operation.exec, "SELECT ?", [])] ∧
    (wConnExecContext oEx { hasExecerContext := true } 0 "SELECT ?" []).2.head? =
      some (Ev.intercepted 0 Operation.exec "SELECT ?" []) ∧
    (beforeObs (wStmtExec stmtEx [Value.int 1]).2).map (fun q => (q.2.2.2.1, q.2.2.2.2)) =
      List.replicate stmtEx.options.Middlewares.length
        ("DO ?", namedValues (values
          (interceptEx 0 Operation.stmtExec "DO ?" (namedValues [Value.int 1])).2.2)) := by
  have h := claim_C9_interceptor_first oEx { hasExecerContext := true } stmtEx
    { hasStmtExecContext := true } 0 "SELECT ?" [] [Value.int 1] interceptEx
    rfl rfl rfl rfl rfl rfl rfl
  exact ⟨h.1.1, h.1.2.1, h.2.2.2.2.1⟩

/-!  Registration lemmas. -/

theorem regLoop_none (names : List String) (pre : String) :
    ∀ (fuel i : Nat),
      (∀ k, k < fuel → names.contains (pre ++ toString (i + k)) = true) →
      regLoop names pre i fuel = none
  | 0, i, _ => rfl
  | fuel + 1, i, h => by
    have h0 : names.contains (pre ++ toString i) = true := by
      simpa using h 0 (Nat.succ_pos fuel)
    have ih := regLoop_none names pre fuel (i + 1) (by
      intro k hk
      have := h (k + 1) (by omega)
      have harith : i + (k + 1) = i + 1 + k := by omega
      rwa [harith] at this)
    have h0m : pre ++ toString i ∈ names := by simpa using h0
    simp [regLoop, h0m, ih]

theorem regLoop_finds (names : List String) (pre : String) :
    ∀ (fuel i k : Nat), k < fuel →
      names.contains (pre ++ toString (i + k)) = false →
      (∀ j, j < k → names.contains (pre ++ toString (i + j)) = true) →
      regLoop names pre i fuel = some (pre ++ toString (i + k))
  | 0, _, k, hk, _, _ => absurd hk (Nat.not_lt_zero k)
  | fuel + 1, i, 0, _, hfree, _ => by
    simp only [Nat.add_zero] at hfree
    have hfm : pre ++ toString i ∉ names := by simpa using hfree
    simp [regLoop, hfm]
  | fuel + 1, i, k + 1, hk, hfree, htaken => by
    have h0 : names.contains (pre ++ toString i) = true := by
      simpa using htaken 0 (Nat.succ_pos k)
    have ih := regLoop_finds names pre fuel (i + 1) k (by omega)
      (by
        have harith : i + (k + 1) = i + 1 + k := by omega
        rwa [harith] at hfree)
      (by
        intro j hj
        have := htaken (j + 1) (by omega)
        have harith : i + (j + 1) = i + 1 + j := by omega
        rwa [harith] at this)
    have harith : i + 1 + k = i + (k + 1) := by omega
    rw [harith] at ih
    have h0m : pre ++ toString i ∈ names := by simpa using h0
    simp [regLoop, h0m, ih]

theorem string_append_inj (p a b : String) (h : p ++ a = p ++ b) : a = b := by
  have hd := congrArg String.data h
  simp only [String.data_append] at hd
  exact String.ext (List.append_cancel_left hd)

/-- C7: registration returns the open error as-is; otherwise it
allocates `<driverName>-wrap-<i>` for the smallest free `i < 100`,
appending it to the registry; with all 100 suffixes taken it reports
the slot-exhaustion error and registers nothing; and on a registry
with no `<driverName>-wrap-` entries, two successive registrations
yield the distinct names with suffixes 0 and 1. -/
theorem claim_C7_register (names : List String) (driverName : String) :
    (∀ (e : GoError) (ce : Err),
      RegisterWithSource names driverName (some e) ce = (names, Except.error e)) ∧
    (∀ i : Nat, i < 100 →
      names.contains (driverName ++ "-wrap-" ++ toString i) = false →
      (∀ j, j < i → names.contains (driverName ++ "-wrap-" ++ toString j) = true) →
      RegisterWithSource names driverName none none =
        (names ++ [driverName ++ "-wrap-" ++ toString i],
         Except.ok (driverName ++ "-wrap-" ++ toString i))) ∧
    ((∀ i, i < 100 → names.contains (driverName ++ "-wrap-" ++ toString i) = true) →
      RegisterWithSource names driverName none none =
        (names,
         Except.error (GoError.mk "unable to register driver, all slots have been taken"))) ∧
    ((∀ i, i < 100 → names.contains (driverName ++ "-wrap-" ++ toString i) = false) →
      RegisterWithSource names driverName none none =
        (names ++ [driverName ++ "-wrap-" ++ toString 0],
         Except.ok (driverName ++ "-wrap-" ++ toString 0)) ∧
      RegisterWithSource (names ++ [driverName ++ "-wrap-" ++ toString 0])
          driverName none none =
        (names ++ [driverName ++ "-wrap-" ++ toString 0] ++
          [driverName ++ "-wrap-" ++ toString 1],
         Except.ok (driverName ++ "-wrap-" ++ toString 1))) := by
  refine ⟨fun e ce => rfl, ?_, ?_, ?_⟩
  · intro i hi hfree htaken
    have hfind := regLoop_finds names (driverName ++ "-wrap-") 100 0 i hi
      (by simpa using hfree) (by intro j hj; simpa using htaken j hj)
    simp only [Nat.zero_add] at hfind
    simp [RegisterWithSource, hfind]
  · intro h
    have hnone := regLoop_none names (driverName ++ "-wrap-") 100 0
      (by intro k hk; simpa using h k hk)
    simp [RegisterWithSource, hnone]
  · intro h
    constructor
    · have hfind := regLoop_finds names (driverName ++ "-wrap-") 100 0 0 (by omega)
        (by simpa using h 0 (by omega))
        (by intro j hj; exact absurd hj (Nat.not_lt_zero j))
      simp only [Nat.zero_add] at hfind
      simp [RegisterWithSource, hfind]
    · have hne : (driverName ++ "-wrap-" ++ toString 1) ≠
          (driverName ++ "-wrap-" ++ toString 0) := by
        intro hc
        have := string_append_inj (driverName ++ "-wrap-") (toString 1) (toString 0) hc
        exact absurd this (by decide)
      have hfree1 : (names ++ [driverName ++ "-wrap-" ++ toString 0]).contains
          (driverName ++ "-wrap-" ++ toString 1) = false := by
        have h1m : driverName ++ "-wrap-" ++ toString 1 ∉ names := by
          simpa using h 1 (by omega)
        simp [List.mem_append, h1m, hne]
      have htaken0 : (names ++ [driverName ++ "-wrap-" ++ toString 0]).contains
          (driverName ++ "-wrap-" ++ toString 0) = true := by
        simp [List.mem_append]
      have hfind := regLoop_finds (names ++ [driverName ++ "-wrap-" ++ toString 0])
        (driverName ++ "-wrap-") 100 0 1 (by omega)
        (by simpa using hfree1)
        (by
          intro j hj
          have hj0 : j = 0 := by omega
          subst hj0
          simpa using htaken0)
      simp only [Nat.zero_add] at hfind
      simp [RegisterWithSource, hfind]

/-- C7 witness: on an empty registry the first two registrations for
`sqlmock` allocate the names with suffixes 0 and 1. -/
theorem claim_C7_witness :
    RegisterWithSource [] "sqlmock" none none =
      (["sqlmock-wrap-0"], Except.ok "sqlmock-wrap-0") ∧
    RegisterWithSource ["sqlmock-wrap-0"] "sqlmock" none none =
      (["sqlmock-wrap-0", "sqlmock-wrap-1"], Except.ok "sqlmock-wrap-1") := by
  have h := (claim_C7_register [] "sqlmock").2.2.2 (by intro i hi; rfl)
  exact ⟨h.1, h.2⟩

/-!  Caller-resolution lemmas. -/

/-- The resolution `Caller` actually computes: the first accepted
frame, formatted — or, when every inspected frame is skipped, the
residual package prefix of the last *named* inspected frame (the empty
string only when no named frame was inspected at all).  The final
yielded frame is never inspected. -/
def CallerSpec (skipPackages : List String) (stack : List String) : String :=
  match (stack.dropLast).find? (frameAccept skipPackages) with
  | some fn => fmtFrame fn
  | none => ((((stack.dropLast).filter frameVisible).getLast?).map framePkg).getD ""

theorem callerLoop_eq (skips : List String) :
    ∀ (frames : List String) (p : String),
      callerLoop skips frames p =
        match frames.find? (frameAccept skips) with
        | some fn => fmtFrame fn
        | none => (((frames.filter frameVisible).getLast?).map framePkg).getD p
  | [], _ => rfl
  | fn :: rest, p => by
    have ih := callerLoop_eq skips rest
    by_cases h1 : frameVisible fn = true
    · have hcond : (fn = "" || strContainsChar fn '\x7b') = false := by
        have h1' := h1
        simp only [frameVisible, Bool.not_eq_true'] at h1'
        exact h1'
      by_cases hacc : frameAccept skips fn = true
      · have hparts : ((framePkg fn = "database/sql" ||
            framePkg fn = "github.com/bool64/dbwrap") = false) ∧
            (skips.contains (framePkg fn) = false) := by
          have hacc' := hacc
          simp only [frameAccept, h1, Bool.true_and, Bool.and_eq_true,
            Bool.not_eq_true'] at hacc'
          exact hacc'
        have hstep : callerLoop skips (fn :: rest) p = fmtFrame fn := by
          have hnmem : framePkg fn ∉ skips := by simpa using hparts.2
          simp [callerLoop, hcond, hparts.1, hnmem]
        rw [hstep, List.find?_cons_of_pos _ hacc]
      · have hor : (framePkg fn = "database/sql" ||
            framePkg fn = "github.com/bool64/dbwrap") = true ∨
            skips.contains (framePkg fn) = true := by
          have hacc' : frameAccept skips fn = false := by
            simpa using hacc
          simp only [frameAccept, h1, Bool.true_and, Bool.and_eq_false_iff,
            Bool.not_eq_false'] at hacc'
          rcases hacc' with h | h
          · exact Or.inl h
          · exact Or.inr h
        have hstep : callerLoop skips (fn :: rest) p = callerLoop skips rest (framePkg fn) := by
          rcases hor with h | h
          · simp [callerLoop, hcond, h]
          · by_cases hb : (framePkg fn = "database/sql" ||
                framePkg fn = "github.com/bool64/dbwrap") = true
            · simp [callerLoop, hcond, hb]
            · have hmem : framePkg fn ∈ skips := by simpa using h
              simp [callerLoop, hcond, hb, hmem]
        rw [hstep, ih (framePkg fn), List.find?_cons_of_neg _ (by simp [hacc]),
          List.filter_cons_of_pos h1]
        cases hf : rest.find? (frameAccept skips) with
        | some g => rfl
        | none =>
          cases hfl : rest.filter frameVisible with
          | nil => simp [hfl]
          | cons a t =>
            rcases hgl : (a :: t).getLast? with _ | g
            · simp at hgl
            · simp [hfl, List.getLast?_cons_cons, hgl]
    · have hcond : (fn = "" || strContainsChar fn '\x7b') = true := by
        have h1' : frameVisible fn = false := by simpa using h1
        simp only [frameVisible, Bool.not_eq_false'] at h1'
        exact h1'
      have hstep : callerLoop skips (fn :: rest) p = callerLoop skips rest p := by
        simp [callerLoop, hcond]
      have hv : frameVisible fn = false := by simpa using h1
      rw [hstep, ih p, List.find?_cons_of_neg _ (by simp [frameAccept, hv]),
        List.filter_cons_of_neg (by simp [hv])]

/-- C8: the claim states that an exhausted walk yields the empty
string; the loop variable refutes it — a stack whose only inspected
frame belongs to the built-in skip set leaves its package prefix in
the loop variable, which is returned: neither the empty string nor any
frame's formatted name. -/
theorem claim_C8_counterexample :
    Caller [] ["database/sql.DB.Query", "runtime.goexit"] = "database/sql" ∧
    ("database/sql" : String) ≠ "" ∧
    ("database/sql" : String) ≠ fmtFrame "database/sql.DB.Query" ∧
    ("database/sql" : String) ≠ fmtFrame "runtime.goexit" := by
  refine ⟨by rfl, by decide, by decide, by decide⟩

/-- C8 (amended): `Caller` inspects every yielded frame except the last
(the loop breaks on `!more` before using the final frame); it returns
the first inspected frame that is named and outside the built-in and
caller-supplied skip sets, formatted as
`path.Base(path.Dir(fn)) + "/" + path.Base(fn)`; when no inspected
frame qualifies it returns the residual package prefix of the last
named inspected frame, or the empty string when no named frame was
inspected.  It is a total function — never an error or panic. -/
theorem claim_C8_caller (skipPackages : List String) (stack : List String) :
    Caller skipPackages stack = CallerSpec skipPackages stack := by
  unfold Caller CallerSpec
  exact callerLoop_eq skipPackages stack.dropLast ""

end Dbwrap
